import Mathlib

/-!
# Input-event translation of the PlayBook video driver

A shallow embedding of `src/video/playbook/SDL_playbookevents.c`.

* C `int` values are integers; the bitwise `&` goes through the 32-bit
  two-complement pattern of its operands (`bits32`, `ofBits32`).
* The calls made to the host sink (`SDL_PrivateKeyboard`,
  `SDL_PrivateMouseButton`, `SDL_PrivateMouseMotion`, `SDL_PrivateQuit`) are
  recorded, in order, as a list of `SinkEvent`, each carrying the argument
  expressions of the call.
* The file-level and function-level statics (`Playbook_Keycodes`,
  `Playbook_specialsyms`, `moveEvent`, `lastButtonState`, `touching`) are
  passed explicitly.
* Storage the code reads without having written it is supplied by the
  environment: the block returned by `malloc`, the automatic variables
  `keysym` and `temp` of `handleKeyboardEvent`, and whatever lies next to
  `Playbook_Keycodes` when it is indexed outside its 256 entries.  Every
  theorem quantifies over that content.
-/

namespace Playbook

set_option maxRecDepth 100000

/-! ## C integers -/

/-- The 32-bit pattern of a C `int`. -/
def bits32 (x : Int) : Nat := (x % 4294967296).toNat

/-- The C `int` with a given 32-bit pattern. -/
def ofBits32 (n : Nat) : Int :=
  if n % 4294967296 < 2147483648 then ((n % 4294967296 : Nat) : Int)
  else ((n % 4294967296 : Nat) : Int) - 4294967296

/-- The C expression `a & b` on two `int`s. -/
def cAnd (a b : Int) : Int := ofBits32 (bits32 a &&& bits32 b)

/-- Conversion of an `int` to `Uint8` (assignment to `keysym->scancode`). -/
def toUint8 (x : Int) : Nat := (x % 256).toNat

/-! ## Host types and constants (headers outside the sources) -/

/-- Modelled from the spec: the `SDL_keysym` record of SDL_keysym.h, a header
that is not among the sources: `Uint8 scancode; SDLKey sym; SDLMod mod;
Uint16 unicode;` (the NormalizedKeyEvent triple plus the unused unicode
field). -/
structure SDL_keysym where
  scancode : Nat
  sym : Int
  mod : Nat
  unicode : Nat
deriving DecidableEq, Repr

/-- Modelled from the spec: `SDL_PRESSED` of SDL_events.h (not in the sources). -/
abbrev SDL_PRESSED : Nat := 1
/-- Modelled from the spec: `SDL_RELEASED` of SDL_events.h (not in the sources). -/
abbrev SDL_RELEASED : Nat := 0

/-- Modelled from the spec: button ids of SDL_mouse.h (not in the sources). -/
abbrev SDL_BUTTON_LEFT : Nat := 1
/-- Modelled from the spec: button ids of SDL_mouse.h (not in the sources). -/
abbrev SDL_BUTTON_WHEELUP : Nat := 4
/-- Modelled from the spec: button ids of SDL_mouse.h (not in the sources). -/
abbrev SDL_BUTTON_WHEELDOWN : Nat := 5

/-- Modelled from the spec: modifier masks of SDL_keysym.h (not in the sources). -/
abbrev KMOD_NONE : Nat := 0x0000
/-- Modelled from the spec: modifier masks of SDL_keysym.h (not in the sources). -/
abbrev KMOD_LSHIFT : Nat := 0x0001
/-- Modelled from the spec: modifier masks of SDL_keysym.h (not in the sources). -/
abbrev KMOD_RSHIFT : Nat := 0x0002
/-- Modelled from the spec: modifier masks of SDL_keysym.h (not in the sources). -/
abbrev KMOD_LCTRL : Nat := 0x0040
/-- Modelled from the spec: modifier masks of SDL_keysym.h (not in the sources). -/
abbrev KMOD_RCTRL : Nat := 0x0080
/-- Modelled from the spec: modifier masks of SDL_keysym.h (not in the sources). -/
abbrev KMOD_LALT : Nat := 0x0100
/-- Modelled from the spec: modifier masks of SDL_keysym.h (not in the sources). -/
abbrev KMOD_RALT : Nat := 0x0200
/-- Modelled from the spec: modifier masks of SDL_keysym.h (not in the sources). -/
abbrev KMOD_LMETA : Nat := 0x0400
/-- Modelled from the spec: modifier masks of SDL_keysym.h (not in the sources). -/
abbrev KMOD_RMETA : Nat := 0x0800
/-- Modelled from the spec: modifier masks of SDL_keysym.h (not in the sources). -/
abbrev KMOD_NUM : Nat := 0x1000
/-- Modelled from the spec: modifier masks of SDL_keysym.h (not in the sources). -/
abbrev KMOD_CAPS : Nat := 0x2000
/-- Modelled from the spec: modifier masks of SDL_keysym.h (not in the sources). -/
abbrev KMOD_MODE : Nat := 0x4000

/-! The `SDLKey` values of SDL_keysym.h.  The printable keys are numbered by
their ASCII code, which is what lets the ascii table map raw codes to
themselves. -/

/-- Modelled from the spec: `SDLKey` of SDL_keysym.h (not in the sources). -/
abbrev SDLK_BACKSPACE : Int := 8
/-- Modelled from the spec: `SDLKey` of SDL_keysym.h (not in the sources). -/
abbrev SDLK_TAB : Int := 9
/-- Modelled from the spec: `SDLKey` of SDL_keysym.h (not in the sources). -/
abbrev SDLK_RETURN : Int := 13
/-- Modelled from the spec: `SDLKey` of SDL_keysym.h (not in the sources). -/
abbrev SDLK_PAUSE : Int := 19
/-- Modelled from the spec: `SDLKey` of SDL_keysym.h (not in the sources). -/
abbrev SDLK_ESCAPE : Int := 27
/-- Modelled from the spec: `SDLKey` of SDL_keysym.h (not in the sources). -/
abbrev SDLK_SPACE : Int := 32
/-- Modelled from the spec: `SDLKey` of SDL_keysym.h (not in the sources). -/
abbrev SDLK_EXCLAIM : Int := 33
/-- Modelled from the spec: `SDLKey` of SDL_keysym.h (not in the sources). -/
abbrev SDLK_QUOTEDBL : Int := 34
/-- Modelled from the spec: `SDLKey` of SDL_keysym.h (not in the sources). -/
abbrev SDLK_HASH : Int := 35
/-- Modelled from the spec: `SDLKey` of SDL_keysym.h (not in the sources). -/
abbrev SDLK_DOLLAR : Int := 36
/-- Modelled from the spec: `SDLKey` of SDL_keysym.h (not in the sources). -/
abbrev SDLK_AMPERSAND : Int := 38
/-- Modelled from the spec: `SDLKey` of SDL_keysym.h (not in the sources). -/
abbrev SDLK_QUOTE : Int := 39
/-- Modelled from the spec: `SDLKey` of SDL_keysym.h (not in the sources). -/
abbrev SDLK_LEFTPAREN : Int := 40
/-- Modelled from the spec: `SDLKey` of SDL_keysym.h (not in the sources). -/
abbrev SDLK_RIGHTPAREN : Int := 41
/-- Modelled from the spec: `SDLKey` of SDL_keysym.h (not in the sources). -/
abbrev SDLK_ASTERISK : Int := 42
/-- Modelled from the spec: `SDLKey` of SDL_keysym.h (not in the sources). -/
abbrev SDLK_PLUS : Int := 43
/-- Modelled from the spec: `SDLKey` of SDL_keysym.h (not in the sources). -/
abbrev SDLK_COMMA : Int := 44
/-- Modelled from the spec: `SDLKey` of SDL_keysym.h (not in the sources). -/
abbrev SDLK_MINUS : Int := 45
/-- Modelled from the spec: `SDLKey` of SDL_keysym.h (not in the sources). -/
abbrev SDLK_PERIOD : Int := 46
/-- Modelled from the spec: `SDLKey` of SDL_keysym.h (not in the sources). -/
abbrev SDLK_SLASH : Int := 47
/-- Modelled from the spec: `SDLKey` of SDL_keysym.h (not in the sources). -/
abbrev SDLK_0 : Int := 48
/-- Modelled from the spec: `SDLKey` of SDL_keysym.h (not in the sources). -/
abbrev SDLK_1 : Int := 49
/-- Modelled from the spec: `SDLKey` of SDL_keysym.h (not in the sources). -/
abbrev SDLK_2 : Int := 50
/-- Modelled from the spec: `SDLKey` of SDL_keysym.h (not in the sources). -/
abbrev SDLK_3 : Int := 51
/-- Modelled from the spec: `SDLKey` of SDL_keysym.h (not in the sources). -/
abbrev SDLK_4 : Int := 52
/-- Modelled from the spec: `SDLKey` of SDL_keysym.h (not in the sources). -/
abbrev SDLK_5 : Int := 53
/-- Modelled from the spec: `SDLKey` of SDL_keysym.h (not in the sources). -/
abbrev SDLK_6 : Int := 54
/-- Modelled from the spec: `SDLKey` of SDL_keysym.h (not in the sources). -/
abbrev SDLK_7 : Int := 55
/-- Modelled from the spec: `SDLKey` of SDL_keysym.h (not in the sources). -/
abbrev SDLK_8 : Int := 56
/-- Modelled from the spec: `SDLKey` of SDL_keysym.h (not in the sources). -/
abbrev SDLK_9 : Int := 57
/-- Modelled from the spec: `SDLKey` of SDL_keysym.h (not in the sources). -/
abbrev SDLK_COLON : Int := 58
/-- Modelled from the spec: `SDLKey` of SDL_keysym.h (not in the sources). -/
abbrev SDLK_SEMICOLON : Int := 59
/-- Modelled from the spec: `SDLKey` of SDL_keysym.h (not in the sources). -/
abbrev SDLK_LESS : Int := 60
/-- Modelled from the spec: `SDLKey` of SDL_keysym.h (not in the sources). -/
abbrev SDLK_EQUALS : Int := 61
/-- Modelled from the spec: `SDLKey` of SDL_keysym.h (not in the sources). -/
abbrev SDLK_GREATER : Int := 62
/-- Modelled from the spec: `SDLKey` of SDL_keysym.h (not in the sources). -/
abbrev SDLK_QUESTION : Int := 63
/-- Modelled from the spec: `SDLKey` of SDL_keysym.h (not in the sources). -/
abbrev SDLK_AT : Int := 64
/-- Modelled from the spec: `SDLKey` of SDL_keysym.h (not in the sources). -/
abbrev SDLK_LEFTBRACKET : Int := 91
/-- Modelled from the spec: `SDLKey` of SDL_keysym.h (not in the sources). -/
abbrev SDLK_BACKSLASH : Int := 92
/-- Modelled from the spec: `SDLKey` of SDL_keysym.h (not in the sources). -/
abbrev SDLK_RIGHTBRACKET : Int := 93
/-- Modelled from the spec: `SDLKey` of SDL_keysym.h (not in the sources). -/
abbrev SDLK_CARET : Int := 94
/-- Modelled from the spec: `SDLKey` of SDL_keysym.h (not in the sources). -/
abbrev SDLK_UNDERSCORE : Int := 95
/-- Modelled from the spec: `SDLKey` of SDL_keysym.h (not in the sources). -/
abbrev SDLK_BACKQUOTE : Int := 96
/-- Modelled from the spec: `SDLKey` of SDL_keysym.h (not in the sources). -/
abbrev SDLK_a : Int := 97
/-- Modelled from the spec: `SDLKey` of SDL_keysym.h (not in the sources). -/
abbrev SDLK_b : Int := 98
/-- Modelled from the spec: `SDLKey` of SDL_keysym.h (not in the sources). -/
abbrev SDLK_c : Int := 99
/-- Modelled from the spec: `SDLKey` of SDL_keysym.h (not in the sources). -/
abbrev SDLK_d : Int := 100
/-- Modelled from the spec: `SDLKey` of SDL_keysym.h (not in the sources). -/
abbrev SDLK_e : Int := 101
/-- Modelled from the spec: `SDLKey` of SDL_keysym.h (not in the sources). -/
abbrev SDLK_f : Int := 102
/-- Modelled from the spec: `SDLKey` of SDL_keysym.h (not in the sources). -/
abbrev SDLK_g : Int := 103
/-- Modelled from the spec: `SDLKey` of SDL_keysym.h (not in the sources). -/
abbrev SDLK_h : Int := 104
/-- Modelled from the spec: `SDLKey` of SDL_keysym.h (not in the sources). -/
abbrev SDLK_i : Int := 105
/-- Modelled from the spec: `SDLKey` of SDL_keysym.h (not in the sources). -/
abbrev SDLK_j : Int := 106
/-- Modelled from the spec: `SDLKey` of SDL_keysym.h (not in the sources). -/
abbrev SDLK_k : Int := 107
/-- Modelled from the spec: `SDLKey` of SDL_keysym.h (not in the sources). -/
abbrev SDLK_l : Int := 108
/-- Modelled from the spec: `SDLKey` of SDL_keysym.h (not in the sources). -/
abbrev SDLK_m : Int := 109
/-- Modelled from the spec: `SDLKey` of SDL_keysym.h (not in the sources). -/
abbrev SDLK_n : Int := 110
/-- Modelled from the spec: `SDLKey` of SDL_keysym.h (not in the sources). -/
abbrev SDLK_o : Int := 111
/-- Modelled from the spec: `SDLKey` of SDL_keysym.h (not in the sources). -/
abbrev SDLK_p : Int := 112
/-- Modelled from the spec: `SDLKey` of SDL_keysym.h (not in the sources). -/
abbrev SDLK_q : Int := 113
/-- Modelled from the spec: `SDLKey` of SDL_keysym.h (not in the sources). -/
abbrev SDLK_r : Int := 114
/-- Modelled from the spec: `SDLKey` of SDL_keysym.h (not in the sources). -/
abbrev SDLK_s : Int := 115
/-- Modelled from the spec: `SDLKey` of SDL_keysym.h (not in the sources). -/
abbrev SDLK_t : Int := 116
/-- Modelled from the spec: `SDLKey` of SDL_keysym.h (not in the sources). -/
abbrev SDLK_u : Int := 117
/-- Modelled from the spec: `SDLKey` of SDL_keysym.h (not in the sources). -/
abbrev SDLK_v : Int := 118
/-- Modelled from the spec: `SDLKey` of SDL_keysym.h (not in the sources). -/
abbrev SDLK_w : Int := 119
/-- Modelled from the spec: `SDLKey` of SDL_keysym.h (not in the sources). -/
abbrev SDLK_x : Int := 120
/-- Modelled from the spec: `SDLKey` of SDL_keysym.h (not in the sources). -/
abbrev SDLK_y : Int := 121
/-- Modelled from the spec: `SDLKey` of SDL_keysym.h (not in the sources). -/
abbrev SDLK_z : Int := 122
/-- Modelled from the spec: `SDLKey` of SDL_keysym.h (not in the sources). -/
abbrev SDLK_DELETE : Int := 127
/-- Modelled from the spec: `SDLKey` of SDL_keysym.h (not in the sources). -/
abbrev SDLK_UP : Int := 273
/-- Modelled from the spec: `SDLKey` of SDL_keysym.h (not in the sources). -/
abbrev SDLK_DOWN : Int := 274
/-- Modelled from the spec: `SDLKey` of SDL_keysym.h (not in the sources). -/
abbrev SDLK_RIGHT : Int := 275
/-- Modelled from the spec: `SDLKey` of SDL_keysym.h (not in the sources). -/
abbrev SDLK_LEFT : Int := 276
/-- Modelled from the spec: `SDLKey` of SDL_keysym.h (not in the sources). -/
abbrev SDLK_INSERT : Int := 277
/-- Modelled from the spec: `SDLKey` of SDL_keysym.h (not in the sources). -/
abbrev SDLK_HOME : Int := 278
/-- Modelled from the spec: `SDLKey` of SDL_keysym.h (not in the sources). -/
abbrev SDLK_END : Int := 279
/-- Modelled from the spec: `SDLKey` of SDL_keysym.h (not in the sources). -/
abbrev SDLK_PAGEUP : Int := 280
/-- Modelled from the spec: `SDLKey` of SDL_keysym.h (not in the sources). -/
abbrev SDLK_PAGEDOWN : Int := 281
/-- Modelled from the spec: `SDLKey` of SDL_keysym.h (not in the sources). -/
abbrev SDLK_F1 : Int := 282
/-- Modelled from the spec: `SDLKey` of SDL_keysym.h (not in the sources). -/
abbrev SDLK_F2 : Int := 283
/-- Modelled from the spec: `SDLKey` of SDL_keysym.h (not in the sources). -/
abbrev SDLK_F3 : Int := 284
/-- Modelled from the spec: `SDLKey` of SDL_keysym.h (not in the sources). -/
abbrev SDLK_F4 : Int := 285
/-- Modelled from the spec: `SDLKey` of SDL_keysym.h (not in the sources). -/
abbrev SDLK_F5 : Int := 286
/-- Modelled from the spec: `SDLKey` of SDL_keysym.h (not in the sources). -/
abbrev SDLK_F6 : Int := 287
/-- Modelled from the spec: `SDLKey` of SDL_keysym.h (not in the sources). -/
abbrev SDLK_F7 : Int := 288
/-- Modelled from the spec: `SDLKey` of SDL_keysym.h (not in the sources). -/
abbrev SDLK_F8 : Int := 289
/-- Modelled from the spec: `SDLKey` of SDL_keysym.h (not in the sources). -/
abbrev SDLK_F9 : Int := 290
/-- Modelled from the spec: `SDLKey` of SDL_keysym.h (not in the sources). -/
abbrev SDLK_F10 : Int := 291
/-- Modelled from the spec: `SDLKey` of SDL_keysym.h (not in the sources). -/
abbrev SDLK_F11 : Int := 292
/-- Modelled from the spec: `SDLKey` of SDL_keysym.h (not in the sources). -/
abbrev SDLK_F12 : Int := 293
/-- Modelled from the spec: `SDLKey` of SDL_keysym.h (not in the sources). -/
abbrev SDLK_CAPSLOCK : Int := 301
/-- Modelled from the spec: `SDLKey` of SDL_keysym.h (not in the sources). -/
abbrev SDLK_SCROLLOCK : Int := 302
/-- Modelled from the spec: `SDLKey` of SDL_keysym.h (not in the sources). -/
abbrev SDLK_RSHIFT : Int := 303
/-- Modelled from the spec: `SDLKey` of SDL_keysym.h (not in the sources). -/
abbrev SDLK_LSHIFT : Int := 304
/-- Modelled from the spec: `SDLKey` of SDL_keysym.h (not in the sources). -/
abbrev SDLK_RCTRL : Int := 305
/-- Modelled from the spec: `SDLKey` of SDL_keysym.h (not in the sources). -/
abbrev SDLK_LCTRL : Int := 306
/-- Modelled from the spec: `SDLKey` of SDL_keysym.h (not in the sources). -/
abbrev SDLK_RALT : Int := 307
/-- Modelled from the spec: `SDLKey` of SDL_keysym.h (not in the sources). -/
abbrev SDLK_LALT : Int := 308
/-- Modelled from the spec: `SDLKey` of SDL_keysym.h (not in the sources). -/
abbrev SDLK_SYSREQ : Int := 317
/-- Modelled from the spec: `SDLKey` of SDL_keysym.h (not in the sources). -/
abbrev SDLK_BREAK : Int := 318
/-- Modelled from the spec: `SDLKey` of SDL_keysym.h (not in the sources). -/
abbrev SDLK_MENU : Int := 319

/-- One call to the host event sink, with the arguments of the call. -/
inductive SinkEvent where
  /-- A call `SDL_PrivateKeyboard(state, &keysym)`. -/
  | key (state : Nat) (keysym : SDL_keysym)
  /-- A call `SDL_PrivateMouseButton(state, button, x, y)`. -/
  | button (state : Nat) (button : Nat) (x y : Int)
  /-- A call `SDL_PrivateMouseMotion(buttonstate, relative, x, y)`. -/
  | motion (buttonstate : Nat) (relative : Int) (x y : Int)
  /-- A call `SDL_PrivateQuit()`. -/
  | quit
deriving DecidableEq, Repr

/-! ## The two key tables -/

/-- The all-zero record of a static `SDL_keysym`. -/
def zeroKeysym : SDL_keysym := ⟨0, 0, 0, 0⟩

/-- The storage behind the keyboard decoders.  `Playbook_Keycodes` is the
static array of 256 records and `Playbook_specialsyms` the block the pointer
of that name refers to.  `beyondKeycodes i` and `beyondSpecial i` stand for
what a read at an index `i` outside the stored entries yields. -/
structure Memory where
  Playbook_Keycodes : List SDL_keysym
  Playbook_specialsyms : List Int
  beyondKeycodes : Int → SDL_keysym
  beyondSpecial : Int → Int

/-- The expression `Playbook_Keycodes[i]`. -/
def Memory.keycodeAt (M : Memory) (i : Int) : SDL_keysym :=
  if 0 ≤ i then (M.Playbook_Keycodes[i.toNat]?).getD (M.beyondKeycodes i)
  else M.beyondKeycodes i

/-- The expression `Playbook_specialsyms[i]`. -/
def Memory.specialAt (M : Memory) (i : Int) : Int :=
  if 0 ≤ i then (M.Playbook_specialsyms[i.toNat]?).getD (M.beyondSpecial i)
  else M.beyondSpecial i

/-- A C loop `for (; i < bound; i++) body`, entered with a given `i`; returns
the final `i` and state.  `fuel` bounds the number of iterations and is
supplied as `bound - i`. -/
def forLoop {σ : Type} (bound : Nat) (body : Nat → σ → σ) : Nat → Nat → σ → Nat × σ
  | 0, i, s => (i, s)
  | fuel + 1, i, s =>
    if i < bound then forLoop bound body fuel (i + 1) (body i s) else (i, s)

/-- An update of the record `Playbook_Keycodes[i]`. -/
def updateAt (l : List SDL_keysym) (i : Nat) (f : SDL_keysym → SDL_keysym) : List SDL_keysym :=
  match l[i]? with
  | some v => l.set i (f v)
  | none => l

/-- The assignment `Playbook_specialsyms[i] = v`. -/
def storeSpecial (l : List Int) (iv : Int × Int) : List Int := l.set iv.1.toNat iv.2

/-- The assignments to `Playbook_specialsyms` in `PLAYBOOK_InitOSKeymap`, as
(index, value) in program order. -/
def specialAssignments : List (Int × Int) :=
  [ (SDLK_BACKSPACE, SDLK_BACKSPACE),
    (SDLK_TAB, SDLK_TAB),
    (SDLK_RETURN, SDLK_RETURN),
    (SDLK_PAUSE, SDLK_PAUSE),
    (SDLK_ESCAPE, SDLK_ESCAPE),
    (0xff, SDLK_DELETE),
    (0x52, SDLK_UP),
    (0x54, SDLK_DOWN),
    (0x53, SDLK_RIGHT),
    (0x51, SDLK_LEFT),
    (0x63, SDLK_INSERT),
    (0x50, SDLK_HOME),
    (0x57, SDLK_END),
    (0x55, SDLK_PAGEUP),
    (0x56, SDLK_PAGEDOWN),
    (0xbe, SDLK_F1),
    (0xbf, SDLK_F2),
    (0xc0, SDLK_F3),
    (0xc1, SDLK_F4),
    (0xc2, SDLK_F5),
    (0xc3, SDLK_F6),
    (0xc4, SDLK_F7),
    (0xc5, SDLK_F8),
    (0xc6, SDLK_F9),
    (0xc7, SDLK_F10),
    (0xc8, SDLK_F11),
    (0xc9, SDLK_F12),
    (0xe5, SDLK_CAPSLOCK),
    (0x14, SDLK_SCROLLOCK),
    (0xe2, SDLK_RSHIFT),
    (0xe1, SDLK_LSHIFT),
    (0xe4, SDLK_RCTRL),
    (0xe3, SDLK_LCTRL),
    (0xe8, SDLK_RALT),
    (0xe9, SDLK_LALT),
    (0xbe, SDLK_MENU),
    (0x61, SDLK_SYSREQ),
    (0x6b, SDLK_BREAK) ]

/-- The first block of `PLAYBOOK_InitOSKeymap`: the three loops over
`Playbook_Keycodes`, sharing the counter `i`. -/
def initKeycodes (kc : List SDL_keysym) : List SDL_keysym :=
  let i := 32
  let (i, kc) := forLoop 65 (fun i kc => updateAt kc i (fun e => { e with sym := (i : Int) }))
    (65 - i) i kc
  let (i, kc) := forLoop 91
    (fun i kc =>
      let kc := updateAt kc i (fun e => { e with sym := (i : Int) + 32 })
      updateAt kc i (fun e => { e with mod := KMOD_LSHIFT }))
    (91 - i) i kc
  let (_, kc) := forLoop 123 (fun i kc => updateAt kc i (fun e => { e with sym := (i : Int) }))
    (123 - i) i kc
  kc

/-- The function `PLAYBOOK_InitOSKeymap`.  `block i` is the content of entry
`i` of the block `malloc(256 * sizeof(SDLKey))` returns, which `malloc` does
not initialise. -/
def PLAYBOOK_InitOSKeymap (M : Memory) (block : Nat → Int) : Memory :=
  let kc := initKeycodes M.Playbook_Keycodes
  let sp := (List.range 256).map block
  let sp := specialAssignments.foldl storeSpecial sp
  { M with Playbook_Keycodes := kc, Playbook_specialsyms := sp }

/-- The storage at program start: statics are zero, and the pointer
`Playbook_specialsyms` refers to no entry. -/
def bootMemory (beyondKeycodes : Int → SDL_keysym) (beyondSpecial : Int → Int) : Memory :=
  { Playbook_Keycodes := List.replicate 256 zeroKeysym,
    Playbook_specialsyms := [],
    beyondKeycodes := beyondKeycodes,
    beyondSpecial := beyondSpecial }

/-! ## Keyboard decoders -/

/-- The table entry that symbol resolution reads. -/
inductive TableRead where
  /-- A read of `Playbook_specialsyms[i]`. -/
  | special (i : Int)
  /-- A read of `Playbook_Keycodes[i].sym`. -/
  | keycodes (i : Int)
deriving DecidableEq, Repr

/-- The branch both decoders take on the raw symbol:
`if (sym & 0xf000) { sym = sym & 0xff; ...Playbook_specialsyms[sym] }
else { ...Playbook_Keycodes[sym].sym }`. -/
def symbolRead (sym : Int) : TableRead :=
  if cAnd sym 0xf000 ≠ 0 then
    let sym := cAnd sym 0xff
    TableRead.special sym
  else
    TableRead.keycodes sym

/-- The value a table read yields. -/
def Memory.load (M : Memory) : TableRead → Int
  | TableRead.special i => M.specialAt i
  | TableRead.keycodes i => (M.keycodeAt i).sym

/-- The function `TranslateBluetoothKeyboard`: the returned `int` and the
record behind `keysym` on return. -/
def TranslateBluetoothKeyboard (M : Memory) (sym mods flags scan _cap : Int)
    (keysym : SDL_keysym) : Int × SDL_keysym :=
  if flags = 32 then (0, keysym)
  else
    let scan := if scan > 128 then scan - 128 else scan
    let keysym := { keysym with scancode := toUint8 scan }
    let keysym := { keysym with mod := 0 }
    let keysym := if cAnd mods 0x1 ≠ 0 then { keysym with mod := keysym.mod ||| KMOD_LSHIFT } else keysym
    let keysym := if cAnd mods 0x2 ≠ 0 then { keysym with mod := keysym.mod ||| KMOD_LCTRL } else keysym
    let keysym := if cAnd mods 0x4 ≠ 0 then { keysym with mod := keysym.mod ||| KMOD_LALT } else keysym
    let keysym := if cAnd mods 0x10000 ≠ 0 then { keysym with mod := keysym.mod ||| KMOD_CAPS } else keysym
    let keysym := if cAnd mods 0x20000 ≠ 0 then { keysym with mod := keysym.mod ||| KMOD_NUM } else keysym
    let keysym := { keysym with sym := M.load (symbolRead sym) }
    (1, keysym)

/-- A statement of a `case` block in the switch of `TranslateVKB`. -/
inductive CaseStmt where
  /-- The statement `shifted = 1;`. -/
  | setShifted
  /-- The statement `keysym->scancode = n;`. -/
  | setScancode (n : Nat)
deriving DecidableEq, Repr

/-- One `case` of a switch: its label, its statements, and whether it ends
in `break` (otherwise control falls through to the next case). -/
structure SwitchCase where
  label : Int
  body : List CaseStmt
  breaks : Bool
deriving DecidableEq, Repr

/-- Execution of one statement on the pair (`shifted`, `*keysym`). -/
def CaseStmt.exec : CaseStmt → Int × SDL_keysym → Int × SDL_keysym
  | CaseStmt.setShifted, (_, ks) => (1, ks)
  | CaseStmt.setScancode n, (sh, ks) => (sh, { ks with scancode := n })

/-- Execution from the top of a case, falling through until a `break` or
the end of the switch. -/
def runCases : List SwitchCase → Int × SDL_keysym → Int × SDL_keysym
  | [], st => st
  | c :: cs, st =>
    let st := c.body.foldl (fun st stmt => stmt.exec st) st
    if c.breaks then st else runCases cs st

/-- The statement `switch (v) { cases }` without a `default`: control enters
at the case whose label equals `v`, and skips the switch when there is none. -/
def switchOn (v : Int) : List SwitchCase → Int × SDL_keysym → Int × SDL_keysym
  | [], st => st
  | c :: cs, st => if v = c.label then runCases (c :: cs) st else switchOn v cs st

/-- The cases of the switch on `keysym->sym` in `TranslateVKB`, in program
order. -/
def vkbCases : List SwitchCase :=
  [
    ⟨SDLK_EXCLAIM, [CaseStmt.setShifted], false⟩,
    ⟨SDLK_1, [CaseStmt.setScancode 2], true⟩,
    ⟨SDLK_AT, [CaseStmt.setShifted], false⟩,
    ⟨SDLK_2, [CaseStmt.setScancode 3], true⟩,
    ⟨SDLK_HASH, [CaseStmt.setShifted], false⟩,
    ⟨SDLK_3, [CaseStmt.setScancode 4], true⟩,
    ⟨SDLK_DOLLAR, [CaseStmt.setShifted], false⟩,
    ⟨SDLK_4, [CaseStmt.setScancode 5], true⟩,
    ⟨SDLK_5, [CaseStmt.setScancode 6], true⟩,
    ⟨SDLK_CARET, [CaseStmt.setShifted], false⟩,
    ⟨SDLK_6, [CaseStmt.setScancode 7], true⟩,
    ⟨SDLK_AMPERSAND, [CaseStmt.setShifted], false⟩,
    ⟨SDLK_7, [CaseStmt.setScancode 8], true⟩,
    ⟨SDLK_ASTERISK, [CaseStmt.setShifted], false⟩,
    ⟨SDLK_8, [CaseStmt.setScancode 9], true⟩,
    ⟨SDLK_LEFTPAREN, [CaseStmt.setShifted], false⟩,
    ⟨SDLK_9, [CaseStmt.setScancode 10], true⟩,
    ⟨SDLK_RIGHTPAREN, [CaseStmt.setShifted], false⟩,
    ⟨SDLK_0, [CaseStmt.setScancode 11], true⟩,
    ⟨SDLK_UNDERSCORE, [CaseStmt.setShifted], false⟩,
    ⟨SDLK_MINUS, [CaseStmt.setScancode 12], true⟩,
    ⟨SDLK_PLUS, [CaseStmt.setShifted], false⟩,
    ⟨SDLK_EQUALS, [CaseStmt.setScancode 13], true⟩,
    ⟨SDLK_BACKSPACE, [CaseStmt.setScancode 14], true⟩,
    ⟨SDLK_TAB, [CaseStmt.setScancode 15], true⟩,
    ⟨SDLK_q, [CaseStmt.setScancode 16], true⟩,
    ⟨SDLK_w, [CaseStmt.setScancode 17], true⟩,
    ⟨SDLK_e, [CaseStmt.setScancode 18], true⟩,
    ⟨SDLK_r, [CaseStmt.setScancode 19], true⟩,
    ⟨SDLK_t, [CaseStmt.setScancode 20], true⟩,
    ⟨SDLK_y, [CaseStmt.setScancode 21], true⟩,
    ⟨SDLK_u, [CaseStmt.setScancode 22], true⟩,
    ⟨SDLK_i, [CaseStmt.setScancode 23], true⟩,
    ⟨SDLK_o, [CaseStmt.setScancode 24], true⟩,
    ⟨SDLK_p, [CaseStmt.setScancode 25], true⟩,
    ⟨SDLK_LEFTBRACKET, [CaseStmt.setScancode 26], true⟩,
    ⟨SDLK_RIGHTBRACKET, [CaseStmt.setScancode 27], true⟩,
    ⟨SDLK_RETURN, [CaseStmt.setScancode 28], true⟩,
    ⟨SDLK_a, [CaseStmt.setScancode 30], true⟩,
    ⟨SDLK_s, [CaseStmt.setScancode 31], true⟩,
    ⟨SDLK_d, [CaseStmt.setScancode 32], true⟩,
    ⟨SDLK_f, [CaseStmt.setScancode 33], true⟩,
    ⟨SDLK_g, [CaseStmt.setScancode 34], true⟩,
    ⟨SDLK_h, [CaseStmt.setScancode 35], true⟩,
    ⟨SDLK_j, [CaseStmt.setScancode 36], true⟩,
    ⟨SDLK_k, [CaseStmt.setScancode 37], true⟩,
    ⟨SDLK_l, [CaseStmt.setScancode 38], true⟩,
    ⟨SDLK_COLON, [CaseStmt.setShifted], false⟩,
    ⟨SDLK_SEMICOLON, [CaseStmt.setScancode 39], true⟩,
    ⟨SDLK_QUOTEDBL, [CaseStmt.setShifted], false⟩,
    ⟨SDLK_QUOTE, [CaseStmt.setScancode 40], true⟩,
    ⟨SDLK_BACKQUOTE, [CaseStmt.setScancode 41], true⟩,
    ⟨SDLK_BACKSLASH, [CaseStmt.setScancode 43], true⟩,
    ⟨SDLK_z, [CaseStmt.setScancode 44], true⟩,
    ⟨SDLK_x, [CaseStmt.setScancode 45], true⟩,
    ⟨SDLK_c, [CaseStmt.setScancode 46], true⟩,
    ⟨SDLK_v, [CaseStmt.setScancode 47], true⟩,
    ⟨SDLK_b, [CaseStmt.setScancode 48], true⟩,
    ⟨SDLK_n, [CaseStmt.setScancode 49], true⟩,
    ⟨SDLK_m, [CaseStmt.setScancode 50], true⟩,
    ⟨SDLK_LESS, [CaseStmt.setShifted], false⟩,
    ⟨SDLK_COMMA, [CaseStmt.setScancode 51], true⟩,
    ⟨SDLK_GREATER, [CaseStmt.setShifted], false⟩,
    ⟨SDLK_PERIOD, [CaseStmt.setScancode 52], true⟩,
    ⟨SDLK_QUESTION, [CaseStmt.setShifted], false⟩,
    ⟨SDLK_SLASH, [CaseStmt.setScancode 53], true⟩,
    ⟨SDLK_SPACE, [CaseStmt.setScancode 57], true⟩ ]

/-- The function `TranslateVKB`: the returned `shifted` and the record
behind `keysym` on return. -/
def TranslateVKB (M : Memory) (sym mods _flags _scan _cap : Int)
    (keysym : SDL_keysym) : Int × SDL_keysym :=
  let shifted : Int := 0
  let keysym := { keysym with sym := M.load (symbolRead sym) }
  let shifted := if cAnd mods 0x1 ≠ 0 then 1 else shifted
  let (shifted, keysym) := switchOn keysym.sym vkbCases (shifted, keysym)
  let keysym := { keysym with mod := KMOD_NONE }
  (shifted, keysym)

/-- The five properties `handleKeyboardEvent` reads from the native event
(each variable is zero when the property cannot be read). -/
structure KeyboardEvent where
  sym : Int
  modifiers : Int
  flags : Int
  scan : Int
  cap : Int
deriving DecidableEq, Repr

/-- The automatic variables of `handleKeyboardEvent` that are declared
without an initialiser, with the content they hold on entry: `keysym`, and
the `temp` of each of the two `if (shifted)` blocks. -/
structure KeyboardFrame where
  keysym : SDL_keysym
  temp1 : SDL_keysym
  temp2 : SDL_keysym
deriving DecidableEq, Repr

/-- The function `handleKeyboardEvent`: the calls to `SDL_PrivateKeyboard`
it makes, in order. -/
def handleKeyboardEvent (M : Memory) (event : KeyboardEvent) (frame : KeyboardFrame) :
    List SinkEvent :=
  let KEYBOARD_TYPE_MASK : Int := 0x20
  let sym := event.sym
  let modifiers := event.modifiers
  let flags := event.flags
  let scan := event.scan
  let cap := event.cap
  let shifted : Int := 0
  let keysym := frame.keysym
  let translated : Option (Int × SDL_keysym) :=
    if cAnd flags KEYBOARD_TYPE_MASK ≠ 0 then
      let r := TranslateBluetoothKeyboard M sym modifiers flags scan cap keysym
      if r.1 = 0 then none else some (shifted, r.2)
    else
      some (TranslateVKB M sym modifiers flags scan cap keysym)
  match translated with
  | none => []
  | some (shifted, keysym) =>
    let out1 :=
      if shifted ≠ 0 then
        let temp := frame.temp1
        let temp := { temp with scancode := 42 }
        let temp := { temp with sym := SDLK_LSHIFT }
        [SinkEvent.key SDL_PRESSED temp]
      else []
    let out2 := [SinkEvent.key (if cAnd flags 0x1 ≠ 0 then SDL_PRESSED else SDL_RELEASED) keysym]
    let out3 :=
      if shifted ≠ 0 then
        let temp := frame.temp2
        let temp := { temp with scancode := 42 }
        let temp := { temp with sym := SDLK_LSHIFT }
        [SinkEvent.key SDL_RELEASED temp]
      else []
    out1 ++ out2 ++ out3

/-! ## Pointer decoder -/

/-- The `moveEvent` record (`struct TouchEvent`). -/
structure TouchEvent where
  pending : Int
  touching : Int
  pos0 : Int
  pos1 : Int
deriving DecidableEq, Repr

/-- The mutable statics of the file: `moveEvent`, the `lastButtonState` of
`handlePointerEvent` and the `touching` of `handleMtouchEvent`. -/
structure DecoderState where
  moveEvent : TouchEvent
  lastButtonState : Int
  touching : Int
deriving DecidableEq, Repr

/-- The statics at program start. -/
def DecoderState.initial : DecoderState := ⟨⟨0, 0, 0, 0⟩, 0, 0⟩

/-- The properties `handlePointerEvent` reads from the native event:
`buttonState`, `coords` (source position), `screen_coords` (position) and
`wheel_delta`. -/
structure PointerEvent where
  buttonState : Int
  coords0 : Int
  coords1 : Int
  screen_coords0 : Int
  screen_coords1 : Int
  wheel_delta : Int
deriving DecidableEq, Repr

/-- The function `handlePointerEvent`: the statics afterwards and the calls
to the sink, in order.  The local `button` is declared without initialiser
and `stackButton` is what it holds then; it is assigned on both branches that
the enclosing test `wheel_delta != 0` leaves open. -/
def handlePointerEvent (s : DecoderState) (event : PointerEvent) (stackButton : Nat) :
    DecoderState × List SinkEvent :=
  let buttonState := event.buttonState
  let wheel_delta := event.wheel_delta
  let out1 :=
    if wheel_delta ≠ 0 then
      let button :=
        if wheel_delta > 0 then SDL_BUTTON_WHEELDOWN
        else if wheel_delta < 0 then SDL_BUTTON_WHEELUP
        else stackButton
      [SinkEvent.button SDL_PRESSED button 0 0, SinkEvent.button SDL_RELEASED button 0 0]
    else []
  if s.lastButtonState = buttonState then
    let moveEvent := { s.moveEvent with touching := buttonState }
    let moveEvent := { moveEvent with pos0 := event.coords0 }
    let moveEvent := { moveEvent with pos1 := event.coords1 }
    let moveEvent := { moveEvent with pending := 1 }
    ({ s with moveEvent := moveEvent }, out1)
  else
    let s := { s with lastButtonState := buttonState }
    let out2 := [SinkEvent.button (if buttonState ≠ 0 then SDL_PRESSED else SDL_RELEASED)
      SDL_BUTTON_LEFT event.coords0 event.coords1]
    let s := { s with moveEvent := { s.moveEvent with pending := 0 } }
    (s, out1 ++ out2)

/-! ## Multi-touch decoder and event pump -/

/-- Modelled from the spec: event types of the platform header screen.h (not
in the sources), the explicit none type. -/
abbrev SCREEN_EVENT_NONE : Int := 0
/-- Modelled from the spec: event types of screen.h (not in the sources). -/
abbrev SCREEN_EVENT_PROPERTY : Int := 2
/-- Modelled from the spec: event types of screen.h (not in the sources). -/
abbrev SCREEN_EVENT_CLOSE : Int := 3
/-- Modelled from the spec: event types of screen.h (not in the sources). -/
abbrev SCREEN_EVENT_POINTER : Int := 6
/-- Modelled from the spec: event types of screen.h (not in the sources). -/
abbrev SCREEN_EVENT_KEYBOARD : Int := 7
/-- Modelled from the spec: event types of screen.h (not in the sources). -/
abbrev SCREEN_EVENT_MTOUCH_TOUCH : Int := 100
/-- Modelled from the spec: event types of screen.h (not in the sources). -/
abbrev SCREEN_EVENT_MTOUCH_MOVE : Int := 101
/-- Modelled from the spec: event types of screen.h (not in the sources). -/
abbrev SCREEN_EVENT_MTOUCH_RELEASE : Int := 102

/-- The properties `handleMtouchEvent` reads from the native event and uses:
`pos` (source position).  The contact id, screen position, orientation,
pressure, timestamp and sequence id are read and not used. -/
structure MtouchEvent where
  pos0 : Int
  pos1 : Int
deriving DecidableEq, Repr

/-- The function `handleMtouchEvent`: the statics afterwards and the calls
to the sink, in order. -/
def handleMtouchEvent (s : DecoderState) (event : MtouchEvent) (type : Int) :
    DecoderState × List SinkEvent :=
  if type = SCREEN_EVENT_MTOUCH_TOUCH then
    let out :=
      if s.touching ≠ 0 then
        [SinkEvent.motion SDL_BUTTON_LEFT 0 event.pos0 event.pos1]
      else
        [SinkEvent.motion 0 0 event.pos0 event.pos1,
         SinkEvent.button SDL_PRESSED SDL_BUTTON_LEFT event.pos0 event.pos1]
    let s := { s with moveEvent := { s.moveEvent with pending := 0 } }
    let s := { s with touching := 1 }
    (s, out)
  else if type = SCREEN_EVENT_MTOUCH_RELEASE then
    let out :=
      if s.touching ≠ 0 then
        [SinkEvent.motion SDL_BUTTON_LEFT 0 event.pos0 event.pos1,
         SinkEvent.button SDL_RELEASED SDL_BUTTON_LEFT event.pos0 event.pos1]
      else
        [SinkEvent.motion 0 0 event.pos0 event.pos1]
    let s := { s with moveEvent := { s.moveEvent with pending := 0 } }
    let s := { s with touching := 0 }
    (s, out)
  else if type = SCREEN_EVENT_MTOUCH_MOVE then
    let moveEvent := { s.moveEvent with pending := 1 }
    let moveEvent := { moveEvent with touching := s.touching }
    let moveEvent := { moveEvent with pos0 := event.pos0 }
    let moveEvent := { moveEvent with pos1 := event.pos1 }
    ({ s with moveEvent := moveEvent }, [])
  else
    (s, [])

/-- A native event as `PLAYBOOK_PumpEvents` sees it: its type, whether the
window property is a non-null handle, and the properties each decoder
reads. -/
structure ScreenEvent where
  type : Int
  hasWindow : Bool
  pointer : PointerEvent
  keyboard : KeyboardEvent
  mtouch : MtouchEvent
deriving DecidableEq, Repr

/-- The outcome of the poll at the top of `PLAYBOOK_PumpEvents`. -/
inductive Poll where
  /-- The call `screen_get_event` returns non-zero. -/
  | failed
  /-- The type property of the event cannot be read. -/
  | noType
  /-- An event was fetched and its type read. -/
  | event (e : ScreenEvent)
deriving DecidableEq, Repr

/-- How one pass through the body of a loop ends: by a `break`, or by
reaching the end of the body, after which the loop runs again. -/
inductive LoopExit where
  /-- The pass ends in `break`. -/
  | leave
  /-- The pass reaches the end of the body. -/
  | again
deriving DecidableEq, Repr

/-- The statement `switch (type)` of `PLAYBOOK_PumpEvents`. -/
def pumpSwitch (M : Memory) (s : DecoderState) (e : ScreenEvent) (frame : KeyboardFrame)
    (stackButton : Nat) : DecoderState × List SinkEvent :=
  if e.type = SCREEN_EVENT_CLOSE then (s, [SinkEvent.quit])
  else if e.type = SCREEN_EVENT_PROPERTY then (s, [])
  else if e.type = SCREEN_EVENT_POINTER then handlePointerEvent s e.pointer stackButton
  else if e.type = SCREEN_EVENT_KEYBOARD then (s, handleKeyboardEvent M e.keyboard frame)
  else if e.type = SCREEN_EVENT_MTOUCH_TOUCH ∨ e.type = SCREEN_EVENT_MTOUCH_MOVE ∨
      e.type = SCREEN_EVENT_MTOUCH_RELEASE then
    handleMtouchEvent s e.mtouch e.type
  else (s, [])

/-- One pass through the body of the `while (1)` of `PLAYBOOK_PumpEvents`,
given the outcome of its poll: the three guarded `break`s, then the switch,
then the `break` that closes the body. -/
def pumpIteration (M : Memory) (s : DecoderState) (poll : Poll) (frame : KeyboardFrame)
    (stackButton : Nat) : LoopExit × DecoderState × List SinkEvent :=
  match poll with
  | Poll.failed => (LoopExit.leave, s, [])
  | Poll.noType => (LoopExit.leave, s, [])
  | Poll.event e =>
    if e.type = SCREEN_EVENT_NONE then (LoopExit.leave, s, [])
    else if !e.hasWindow ∧ e.type ≠ SCREEN_EVENT_KEYBOARD then (LoopExit.leave, s, [])
    else
      let r := pumpSwitch M s e frame stackButton
      (LoopExit.leave, r.1, r.2)

/-- The loop `while (1)` of `PLAYBOOK_PumpEvents`.  `queue k` is the outcome
of the poll of pass `k`; `polled` counts the polls made so far; the result
is the number of polls made, the statics and the calls to the sink.  `fuel`
bounds the number of passes. -/
def pumpWhile (M : Memory) (queue : Nat → Poll) (frame : KeyboardFrame) (stackButton : Nat) :
    Nat → Nat → DecoderState → List SinkEvent → Option (Nat × DecoderState × List SinkEvent)
  | 0, _, _, _ => none
  | fuel + 1, polled, s, out =>
    match pumpIteration M s (queue polled) frame stackButton with
    | (LoopExit.leave, s, o) => some (polled + 1, s, out ++ o)
    | (LoopExit.again, s, o) =>
      pumpWhile M queue frame stackButton fuel (polled + 1) s (out ++ o)

/-- The statement after the loop of `PLAYBOOK_PumpEvents`: the flush of
`moveEvent`. -/
def pumpFlush (s : DecoderState) : DecoderState × List SinkEvent :=
  if s.moveEvent.pending ≠ 0 then
    ({ s with moveEvent := { s.moveEvent with pending := 0 } },
     [SinkEvent.motion (if s.moveEvent.touching ≠ 0 then SDL_BUTTON_LEFT else 0) 0
        s.moveEvent.pos0 s.moveEvent.pos1])
  else (s, [])

/-- The function `PLAYBOOK_PumpEvents`: the number of polls made, the
statics afterwards and the calls to the sink, in order. -/
def PLAYBOOK_PumpEvents (M : Memory) (s : DecoderState) (queue : Nat → Poll)
    (frame : KeyboardFrame) (stackButton : Nat) (fuel : Nat) :
    Option (Nat × DecoderState × List SinkEvent) :=
  match pumpWhile M queue frame stackButton fuel 0 s [] with
  | none => none
  | some (polled, s, out1) =>
    let r := pumpFlush s
    some (polled, r.1, out1 ++ r.2)

/-- A sequence of pointer events handled one after the other by
`handlePointerEvent`, each with the content of its uninitialised `button`:
the statics at the end and all calls to the sink, in order. -/
def runPointer (s : DecoderState) (es : List (PointerEvent × Nat)) :
    DecoderState × List SinkEvent :=
  es.foldl (fun acc e =>
    let r := handlePointerEvent acc.1 e.1 e.2
    (r.1, acc.2 ++ r.2)) (s, [])

/-- A sequence of touch events, each with its type, handled one after the
other by `handleMtouchEvent`: the statics at the end and all calls to the
sink, in order. -/
def runMtouch (s : DecoderState) (es : List (MtouchEvent × Int)) :
    DecoderState × List SinkEvent :=
  es.foldl (fun acc e =>
    let r := handleMtouchEvent acc.1 e.1 e.2
    (r.1, acc.2 ++ r.2)) (s, [])

/-- The states of the statics between calls of `PLAYBOOK_PumpEvents`: the
one at program start, and the one any returning call leaves. -/
inductive Reachable : DecoderState → Prop where
  /-- The statics at program start. -/
  | start : Reachable DecoderState.initial
  /-- The statics a call of `PLAYBOOK_PumpEvents` leaves. -/
  | pump (M : Memory) (s : DecoderState) (queue : Nat → Poll) (frame : KeyboardFrame)
      (stackButton fuel polled : Nat) (s' : DecoderState) (out : List SinkEvent) :
      Reachable s →
      PLAYBOOK_PumpEvents M s queue frame stackButton fuel = some (polled, s', out) →
      Reachable s'

/-! ## Vocabulary of the statements -/

/-- The sixteen symbols whose case in the switch of `TranslateVKB` starts
with `shifted = 1;`: ! @ # $ ^ & * ( ) _ + : double-quote < > ? -/
def vkbShiftedSyms : List Int :=
  [SDLK_EXCLAIM, SDLK_AT, SDLK_HASH, SDLK_DOLLAR, SDLK_CARET, SDLK_AMPERSAND, SDLK_ASTERISK,
   SDLK_LEFTPAREN, SDLK_RIGHTPAREN, SDLK_UNDERSCORE, SDLK_PLUS, SDLK_COLON, SDLK_QUOTEDBL,
   SDLK_LESS, SDLK_GREATER, SDLK_QUESTION]

/-- The labels of the switch of `TranslateVKB`. -/
def vkbLabels : List Int := vkbCases.map (fun c => c.label)

/-- A storage used to instantiate statements: the tables as
`PLAYBOOK_InitOSKeymap` leaves them when every unwritten cell holds 7. -/
def sampleMemory : Memory :=
  PLAYBOOK_InitOSKeymap (bootMemory (fun _ => ⟨7, 7, 7, 7⟩) (fun _ => 7)) (fun _ => 7)

/-- A frame of `handleKeyboardEvent` used to instantiate statements. -/
def sampleFrame : KeyboardFrame := ⟨⟨99, 99, 99, 99⟩, ⟨1, 1, 1, 1⟩, ⟨2, 2, 2, 2⟩⟩

/-- The synthetic left-shift record: `temp.scancode = 42; temp.sym =
SDLK_LSHIFT;` on a `temp` with the given prior content. -/
def shiftKey (temp : SDL_keysym) : SDL_keysym := { temp with scancode := 42, sym := SDLK_LSHIFT }

/-- The modifier mask by its five sources: one `SDLMod` bit per tested bit
of `mods`. -/
def bluetoothMod (mods : Int) : Nat :=
  (if mods % 2 = 1 then KMOD_LSHIFT else 0) + (if mods / 2 % 2 = 1 then KMOD_LCTRL else 0) +
  (if mods / 4 % 2 = 1 then KMOD_LALT else 0) + (if mods / 65536 % 2 = 1 then KMOD_CAPS else 0) +
  (if mods / 131072 % 2 = 1 then KMOD_NUM else 0)

/-- The sixteen (shifted symbol, base symbol) pairs of US-QWERTY keys whose
shifted symbol has a case in the switch, by raw ASCII code:
(!,1) (@,2) (#,3) ($,4) (^,6) (&,7) (*,8) ((,9) (),0) (_,-) (+,=) (:,;)
(double-quote,quote) (<,comma) (>,.) (?,/). -/
def vkbShiftPairs : List (Int × Int) :=
  [(33, 49), (64, 50), (35, 51), (36, 52), (94, 54), (38, 55), (42, 56), (40, 57), (41, 48),
   (95, 45), (43, 61), (58, 59), (34, 39), (60, 44), (62, 46), (63, 47)]

/-- Entry `i` of the ascii table as the three loops leave a zeroed array. -/
def asciiEntry (i : Nat) : SDL_keysym :=
  if (32 ≤ i ∧ i ≤ 64) ∨ (91 ≤ i ∧ i ≤ 122) then ⟨0, (i : Int), KMOD_NONE, 0⟩
  else if 65 ≤ i ∧ i ≤ 90 then ⟨0, (i : Int) + 32, KMOD_LSHIFT, 0⟩
  else ⟨0, 0, KMOD_NONE, 0⟩

/-- The pressed/released states of the left-button events among the calls
to the sink, in order. -/
def leftStates (out : List SinkEvent) : List Nat :=
  out.filterMap (fun ev =>
    match ev with
    | SinkEvent.button st b _ _ => if b = SDL_BUTTON_LEFT then some st else none
    | _ => none)

/-- Whether a call to the sink is a button event of the given button. -/
def SinkEvent.isButton (b : Nat) : SinkEvent → Bool
  | SinkEvent.button _ b' _ _ => b' == b
  | _ => false

/-- Whether a call to the sink is a button event of a wheel button. -/
def SinkEvent.isWheel (ev : SinkEvent) : Bool :=
  ev.isButton SDL_BUTTON_WHEELUP || ev.isButton SDL_BUTTON_WHEELDOWN

/-- The strict alternation press, release, press, ... of length `n`,
beginning with a press. -/
def alternation (n : Nat) : List Nat :=
  (List.range n).map (fun i => if i % 2 = 0 then SDL_PRESSED else SDL_RELEASED)

/-- Whether a table read stays within the 256 entries of its table. -/
def TableRead.inTable : TableRead → Bool
  | TableRead.special i => decide (0 ≤ i ∧ i < 256)
  | TableRead.keycodes i => decide (0 ≤ i ∧ i < 256)

/-- The value the assignments of `PLAYBOOK_InitOSKeymap` leave in slot `i` of
the special table: that of the last assignment to the slot, if there is
one. -/
def lastAssigned (i : Nat) : Option Int :=
  specialAssignments.foldl (fun acc iv => if iv.1.toNat = i then some iv.2 else acc) none

/-- The native queue that yields the same poll outcome at every pass. -/
def constQueue (p : Poll) : Nat → Poll := fun _ => p

/-- A native event of the given type with a window, used to instantiate
statements: touch position (5, 6), no pointer or key data. -/
def sampleEvent (type : Int) : ScreenEvent :=
  ⟨type, true, ⟨0, 0, 0, 0, 0, 0⟩, ⟨0, 0, 0, 0, 0⟩, ⟨5, 6⟩⟩

/-! ## Bitwise and -/

theorem nat_and_two_pow (n k : Nat) :
    n &&& 2 ^ k = if n / 2 ^ k % 2 = 1 then 2 ^ k else 0 := by
  apply Nat.eq_of_testBit_eq
  intro i
  rw [Nat.testBit_and, Nat.testBit_two_pow]
  by_cases hki : k = i
  · subst hki
    by_cases hb : n / 2 ^ k % 2 = 1
    · simp [hb, Nat.testBit_to_div_mod]
    · simp [hb, Nat.testBit_to_div_mod]
  · by_cases hb : n / 2 ^ k % 2 = 1
    · simp [hb, hki, Nat.testBit_two_pow]
    · simp [hb, hki]

theorem ofBits32_of_lt (n : Nat) (h : n < 2147483648) : ofBits32 n = (n : Int) := by
  unfold ofBits32
  have h1 : n % 4294967296 = n := Nat.mod_eq_of_lt (by omega)
  rw [h1, if_pos h]

theorem bits32_natCast (m : Nat) (h : m < 4294967296) : bits32 (m : Int) = m := by
  unfold bits32
  omega

/-- For a mask `m` below `2 ^ 31`, `a & m` is the bitwise and of the 32-bit pattern of `a` with `m`. -/
theorem cAnd_natCast (a : Int) (m : Nat) (h : m < 2147483648) :
    cAnd a (m : Int) = ((bits32 a &&& m : Nat) : Int) := by
  unfold cAnd
  rw [bits32_natCast m (by omega)]
  exact ofBits32_of_lt _ (lt_of_le_of_lt Nat.and_le_right h)

theorem cAnd_bit (a : Int) (k : Nat) (hk : k < 31) :
    cAnd a ((2 ^ k : Nat) : Int) ≠ 0 ↔ bits32 a / 2 ^ k % 2 = 1 := by
  have hlt : 2 ^ k < 2147483648 := by
    have : (2:Nat) ^ k < 2 ^ 31 := Nat.pow_lt_pow_right (by norm_num) hk
    simpa using this
  rw [cAnd_natCast a _ hlt, nat_and_two_pow]
  have hpos : 0 < 2 ^ k := Nat.pos_of_ne_zero (by positivity)
  split_ifs with hc
  · simp [hc]
  · simp [hc]

theorem cAnd_0x1 (a : Int) : cAnd a 0x1 ≠ 0 ↔ a % 2 = 1 := by
  have h := cAnd_bit a 0 (by norm_num)
  simp only [pow_zero, Nat.cast_one, Nat.div_one] at h
  rw [h]; unfold bits32; omega

theorem cAnd_0x2 (a : Int) : cAnd a 0x2 ≠ 0 ↔ a / 2 % 2 = 1 := by
  have h := cAnd_bit a 1 (by norm_num)
  simp only [pow_one, Nat.cast_ofNat] at h
  rw [h]; unfold bits32; omega

theorem cAnd_0x4 (a : Int) : cAnd a 0x4 ≠ 0 ↔ a / 4 % 2 = 1 := by
  have h := cAnd_bit a 2 (by norm_num)
  norm_num at h
  refine h.trans ?_
  unfold bits32; omega

theorem cAnd_0x20 (a : Int) : cAnd a 0x20 ≠ 0 ↔ a / 32 % 2 = 1 := by
  have h := cAnd_bit a 5 (by norm_num)
  norm_num at h
  refine h.trans ?_
  unfold bits32; omega

theorem cAnd_0x10000 (a : Int) : cAnd a 0x10000 ≠ 0 ↔ a / 65536 % 2 = 1 := by
  have h := cAnd_bit a 16 (by norm_num)
  norm_num at h
  refine h.trans ?_
  unfold bits32; omega

theorem cAnd_0x20000 (a : Int) : cAnd a 0x20000 ≠ 0 ↔ a / 131072 % 2 = 1 := by
  have h := cAnd_bit a 17 (by norm_num)
  norm_num at h
  refine h.trans ?_
  unfold bits32; omega

/-! ## The hardware-keyboard decoder, field by field -/

/-- What `TranslateBluetoothKeyboard` returns when it does not filter the
message: 1, and the record with the normalised scan code, the table symbol,
the modifier mask built from five bits of `mods`, and `unicode` untouched. -/
theorem TranslateBluetoothKeyboard_eq (M : Memory) (sym mods flags scan cap : Int)
    (ks : SDL_keysym) (hflags : flags ≠ 32) :
    TranslateBluetoothKeyboard M sym mods flags scan cap ks =
      (1, { scancode := toUint8 (if scan > 128 then scan - 128 else scan),
            sym := M.load (symbolRead sym),
            mod := bluetoothMod mods,
            unicode := ks.unicode }) := by
  have e1 : (cAnd mods 0x1 ≠ 0) = (mods % 2 = 1) := propext (cAnd_0x1 mods)
  have e2 : (cAnd mods 0x2 ≠ 0) = (mods / 2 % 2 = 1) := propext (cAnd_0x2 mods)
  have e3 : (cAnd mods 0x4 ≠ 0) = (mods / 4 % 2 = 1) := propext (cAnd_0x4 mods)
  have e4 : (cAnd mods 0x10000 ≠ 0) = (mods / 65536 % 2 = 1) := propext (cAnd_0x10000 mods)
  have e5 : (cAnd mods 0x20000 ≠ 0) = (mods / 131072 % 2 = 1) := propext (cAnd_0x20000 mods)
  unfold TranslateBluetoothKeyboard bluetoothMod
  rw [if_neg hflags]
  simp only [e1, e2, e3, e4, e5]
  by_cases c1 : mods % 2 = 1 <;> by_cases c2 : mods / 2 % 2 = 1 <;>
    by_cases c3 : mods / 4 % 2 = 1 <;> by_cases c4 : mods / 65536 % 2 = 1 <;>
    by_cases c5 : mods / 131072 % 2 = 1 <;>
    simp only [c1, c2, c3, c4, c5, if_true, if_false] <;> rfl

/-! ## Orchestration of the keyboard decoders -/

/-- C1: for a keyboard event whose flags have bit 0x20 clear, when `TranslateVKB`
returns a non-zero `shifted` the calls to the sink are exactly: press of the
left-shift record (symbol `SDLK_LSHIFT`, scancode 42), the real key, release
of the left-shift record; when it returns zero, the real key alone.  The real
key is posted pressed when bit 0 of flags is set and released otherwise. -/
theorem handleKeyboardEvent_virtual (M : Memory) (ev : KeyboardEvent) (frame : KeyboardFrame)
    (hvkb : ev.flags / 32 % 2 = 0) :
    ((TranslateVKB M ev.sym ev.modifiers ev.flags ev.scan ev.cap frame.keysym).1 ≠ 0 →
      handleKeyboardEvent M ev frame =
        [SinkEvent.key SDL_PRESSED (shiftKey frame.temp1),
         SinkEvent.key (if ev.flags % 2 = 1 then SDL_PRESSED else SDL_RELEASED)
           (TranslateVKB M ev.sym ev.modifiers ev.flags ev.scan ev.cap frame.keysym).2,
         SinkEvent.key SDL_RELEASED (shiftKey frame.temp2)]) ∧
    ((TranslateVKB M ev.sym ev.modifiers ev.flags ev.scan ev.cap frame.keysym).1 = 0 →
      handleKeyboardEvent M ev frame =
        [SinkEvent.key (if ev.flags % 2 = 1 then SDL_PRESSED else SDL_RELEASED)
           (TranslateVKB M ev.sym ev.modifiers ev.flags ev.scan ev.cap frame.keysym).2]) ∧
    (shiftKey frame.temp1).sym = SDLK_LSHIFT ∧ (shiftKey frame.temp1).scancode = 42 ∧
    (shiftKey frame.temp2).sym = SDLK_LSHIFT ∧ (shiftKey frame.temp2).scancode = 42 := by
  have hmask : ¬ (cAnd ev.flags 0x20 ≠ 0) := by
    rw [cAnd_0x20]; omega
  have hbit : (cAnd ev.flags 0x1 ≠ 0) = (ev.flags % 2 = 1) := propext (cAnd_0x1 ev.flags)
  refine ⟨?_, ?_, rfl, rfl, rfl, rfl⟩
  · intro hsh
    simp only [handleKeyboardEvent, if_neg hmask, hbit, if_pos hsh, shiftKey]
    rfl
  · intro hsh
    have hsh2 : ¬ ((TranslateVKB M ev.sym ev.modifiers ev.flags ev.scan ev.cap frame.keysym).1 ≠ 0) :=
      fun h => h hsh
    simp only [handleKeyboardEvent, if_neg hmask, hbit, if_neg hsh2]
    rfl

/-- Witness of C1 on the virtual-keyboard press of `!` (shifted) and of `1`
(not shifted). -/
theorem handleKeyboardEvent_virtual_witness :
    handleKeyboardEvent sampleMemory ⟨33, 0, 1, 0, 0⟩ sampleFrame =
        [SinkEvent.key SDL_PRESSED (shiftKey sampleFrame.temp1),
         SinkEvent.key SDL_PRESSED ⟨2, 33, 0, 99⟩,
         SinkEvent.key SDL_RELEASED (shiftKey sampleFrame.temp2)] ∧
    handleKeyboardEvent sampleMemory ⟨49, 0, 0, 0, 0⟩ sampleFrame =
        [SinkEvent.key SDL_RELEASED ⟨2, 49, 0, 99⟩] :=
  ⟨(handleKeyboardEvent_virtual sampleMemory ⟨33, 0, 1, 0, 0⟩ sampleFrame (by decide)).1
      (by decide),
   (handleKeyboardEvent_virtual sampleMemory ⟨49, 0, 0, 0, 0⟩ sampleFrame (by decide)).2.1
      (by decide)⟩

/-- C2: `TranslateBluetoothKeyboard` returns 0 exactly when flags equal 32,
whatever the other arguments; a keyboard event with flags 32 makes
`handleKeyboardEvent` post nothing; an event with bit 0x20 set and flags
other than 32 makes it post exactly one key (the decoded one, no synthetic
shift). -/
theorem TranslateBluetoothKeyboard_filter (M : Memory) :
    (∀ (sym mods flags scan cap : Int) (ks : SDL_keysym),
      (TranslateBluetoothKeyboard M sym mods flags scan cap ks).1 = 0 ↔ flags = 32) ∧
    (∀ (ev : KeyboardEvent) (frame : KeyboardFrame), ev.flags = 32 →
      handleKeyboardEvent M ev frame = []) ∧
    (∀ (ev : KeyboardEvent) (frame : KeyboardFrame), ev.flags / 32 % 2 = 1 → ev.flags ≠ 32 →
      handleKeyboardEvent M ev frame =
        [SinkEvent.key (if ev.flags % 2 = 1 then SDL_PRESSED else SDL_RELEASED)
          (TranslateBluetoothKeyboard M ev.sym ev.modifiers ev.flags ev.scan ev.cap
            frame.keysym).2]) := by
  have hrc : ∀ (sym mods flags scan cap : Int) (ks : SDL_keysym),
      (TranslateBluetoothKeyboard M sym mods flags scan cap ks).1 = 0 ↔ flags = 32 := by
    intro sym mods flags scan cap ks
    unfold TranslateBluetoothKeyboard
    by_cases h : flags = 32
    · simp [h]
    · simp [h]
  refine ⟨hrc, ?_, ?_⟩
  · intro ev frame h32
    have hmask : cAnd ev.flags 0x20 ≠ 0 := by
      rw [cAnd_0x20, h32]; decide
    have h0 := (hrc ev.sym ev.modifiers ev.flags ev.scan ev.cap frame.keysym).2 h32
    simp only [handleKeyboardEvent, if_pos hmask, if_pos h0]
  · intro ev frame hbt hne
    have hmask : cAnd ev.flags 0x20 ≠ 0 := (cAnd_0x20 ev.flags).2 hbt
    have hbit : (cAnd ev.flags 0x1 ≠ 0) = (ev.flags % 2 = 1) := propext (cAnd_0x1 ev.flags)
    have h0 : ¬ (TranslateBluetoothKeyboard M ev.sym ev.modifiers ev.flags ev.scan ev.cap
        frame.keysym).1 = 0 :=
      fun h => hne ((hrc ev.sym ev.modifiers ev.flags ev.scan ev.cap frame.keysym).1 h)
    simp only [handleKeyboardEvent, if_pos hmask, if_neg h0, hbit]
    rfl

/-- Witness of C2: the filtered message (flags 32) posts nothing, and a
hardware-keyboard press of `a` (flags 0xe1) posts one key. -/
theorem TranslateBluetoothKeyboard_filter_witness :
    handleKeyboardEvent sampleMemory ⟨97, 0, 32, 30, 0⟩ sampleFrame = [] ∧
    handleKeyboardEvent sampleMemory ⟨97, 1, 0xe1, 30, 0⟩ sampleFrame =
      [SinkEvent.key SDL_PRESSED ⟨30, 97, KMOD_LSHIFT, 99⟩] :=
  ⟨(TranslateBluetoothKeyboard_filter sampleMemory).2.1 ⟨97, 0, 32, 30, 0⟩ sampleFrame rfl,
   (TranslateBluetoothKeyboard_filter sampleMemory).2.2 ⟨97, 1, 0xe1, 30, 0⟩ sampleFrame
      (by decide) (by decide)⟩

/-- C3 (the code at the failing input): raw scan code 128, the released
marker on top of scan code 0, keeps abstract scancode 128, while raw scan code
0 gets abstract scancode 0: the test `scan > 128` leaves 128 unreduced. -/
theorem TranslateBluetoothKeyboard_scan_128 :
    (TranslateBluetoothKeyboard sampleMemory 97 0 0xe0 128 0 zeroKeysym).2.scancode = 128 ∧
    (TranslateBluetoothKeyboard sampleMemory 97 0 0xe0 (128 - 128) 0 zeroKeysym).2.scancode = 0 ∧
    (TranslateBluetoothKeyboard sampleMemory 97 0 0xe0 129 0 zeroKeysym).2.scancode = 1 ∧
    (TranslateBluetoothKeyboard sampleMemory 97 0 0xe0 (129 - 128) 0 zeroKeysym).2.scancode = 1 := by
  decide

/-- C4: for a scan code `s` in 1..127 and flags other than 32, the calls with
scan `s` and with scan `s + 128` both return 1 and produce scancode `s`, the
same symbol and the same modifier mask (whatever the prior content of the
record they fill). -/
theorem TranslateBluetoothKeyboard_release_pairs (M : Memory) (s sym mods flags cap : Int)
    (ks ks' : SDL_keysym) (h1 : 1 ≤ s) (h127 : s ≤ 127) (hflags : flags ≠ 32) :
    (TranslateBluetoothKeyboard M sym mods flags s cap ks).1 = 1 ∧
    (TranslateBluetoothKeyboard M sym mods flags (s + 128) cap ks').1 = 1 ∧
    ((TranslateBluetoothKeyboard M sym mods flags s cap ks).2.scancode : Int) = s ∧
    ((TranslateBluetoothKeyboard M sym mods flags (s + 128) cap ks').2.scancode : Int) = s ∧
    (TranslateBluetoothKeyboard M sym mods flags (s + 128) cap ks').2.sym =
      (TranslateBluetoothKeyboard M sym mods flags s cap ks).2.sym ∧
    (TranslateBluetoothKeyboard M sym mods flags (s + 128) cap ks').2.mod =
      (TranslateBluetoothKeyboard M sym mods flags s cap ks).2.mod := by
  have hlo : ¬ (s > 128) := by omega
  have hhi : s + 128 > 128 := by omega
  rw [TranslateBluetoothKeyboard_eq M sym mods flags s cap ks hflags,
    TranslateBluetoothKeyboard_eq M sym mods flags (s + 128) cap ks' hflags,
    if_neg hlo, if_pos hhi]
  refine ⟨rfl, rfl, ?_, ?_, rfl, rfl⟩
  · show ((toUint8 s : Nat) : Int) = s
    unfold toUint8; omega
  · show ((toUint8 (s + 128 - 128) : Nat) : Int) = s
    unfold toUint8; omega

/-- Witness of C4 at scan code 30 (the key `a`) and its release code 158. -/
theorem TranslateBluetoothKeyboard_release_pairs_witness :
    (TranslateBluetoothKeyboard sampleMemory 97 1 0xe1 30 0 zeroKeysym).1 = 1 ∧
    (TranslateBluetoothKeyboard sampleMemory 97 1 0xe1 (30 + 128) 0 sampleFrame.keysym).1 = 1 ∧
    ((TranslateBluetoothKeyboard sampleMemory 97 1 0xe1 30 0 zeroKeysym).2.scancode : Int) = 30 ∧
    ((TranslateBluetoothKeyboard sampleMemory 97 1 0xe1 (30 + 128) 0
      sampleFrame.keysym).2.scancode : Int) = 30 ∧
    (TranslateBluetoothKeyboard sampleMemory 97 1 0xe1 (30 + 128) 0 sampleFrame.keysym).2.sym =
      (TranslateBluetoothKeyboard sampleMemory 97 1 0xe1 30 0 zeroKeysym).2.sym ∧
    (TranslateBluetoothKeyboard sampleMemory 97 1 0xe1 (30 + 128) 0 sampleFrame.keysym).2.mod =
      (TranslateBluetoothKeyboard sampleMemory 97 1 0xe1 30 0 zeroKeysym).2.mod :=
  TranslateBluetoothKeyboard_release_pairs sampleMemory 30 97 1 0xe1 0 zeroKeysym
    sampleFrame.keysym (by decide) (by decide) (by decide)

/-! ## The ascii table -/

/-- The three loops of `PLAYBOOK_InitOSKeymap` on the zeroed static array. -/
theorem initKeycodes_table :
    initKeycodes (List.replicate 256 zeroKeysym) = (List.range 256).map asciiEntry := by
  decide

/-- The ascii table after `PLAYBOOK_InitOSKeymap` at program start. -/
theorem init_Playbook_Keycodes (bk : Int → SDL_keysym) (bs : Int → Int) (block : Nat → Int) :
    (PLAYBOOK_InitOSKeymap (bootMemory bk bs) block).Playbook_Keycodes
      = (List.range 256).map asciiEntry := by
  have h1 : ∀ M : Memory, (PLAYBOOK_InitOSKeymap M block).Playbook_Keycodes
      = initKeycodes M.Playbook_Keycodes := by
    intro M
    simp only [PLAYBOOK_InitOSKeymap]
  have h2 : (bootMemory bk bs).Playbook_Keycodes = List.replicate 256 zeroKeysym := by
    simp only [bootMemory]
  rw [h1, h2, initKeycodes_table]

/-- A read of `Playbook_Keycodes[i]` inside the table after initialisation. -/
theorem keycodeAt_init (bk : Int → SDL_keysym) (bs : Int → Int) (block : Nat → Int)
    (i : Nat) (hi : i < 256) :
    (PLAYBOOK_InitOSKeymap (bootMemory bk bs) block).keycodeAt (i : Int) = asciiEntry i := by
  have hk := init_Playbook_Keycodes bk bs block
  unfold Memory.keycodeAt
  rw [if_pos (Int.natCast_nonneg i), hk, Int.toNat_natCast]
  simp [hi]

/-- C9: after `PLAYBOOK_InitOSKeymap` on the zeroed static array, entry `i` of
the ascii table (0 ≤ i ≤ 255) has symbol `i` and no modifier for 32..64 and
91..122, symbol `i + 32` and modifier left-shift for 65..90, and symbol 0 and
no modifier elsewhere. -/
theorem PLAYBOOK_InitOSKeymap_ascii (bk : Int → SDL_keysym) (bs : Int → Int)
    (block : Nat → Int) (i : Nat) (hi : i < 256) :
    (((32 ≤ i ∧ i ≤ 64) ∨ (91 ≤ i ∧ i ≤ 122)) →
      ((PLAYBOOK_InitOSKeymap (bootMemory bk bs) block).keycodeAt (i : Int)).sym = (i : Int) ∧
      ((PLAYBOOK_InitOSKeymap (bootMemory bk bs) block).keycodeAt (i : Int)).mod = KMOD_NONE) ∧
    ((65 ≤ i ∧ i ≤ 90) →
      ((PLAYBOOK_InitOSKeymap (bootMemory bk bs) block).keycodeAt (i : Int)).sym = (i : Int) + 32 ∧
      ((PLAYBOOK_InitOSKeymap (bootMemory bk bs) block).keycodeAt (i : Int)).mod = KMOD_LSHIFT) ∧
    ((i < 32 ∨ 122 < i) →
      ((PLAYBOOK_InitOSKeymap (bootMemory bk bs) block).keycodeAt (i : Int)).sym = 0 ∧
      ((PLAYBOOK_InitOSKeymap (bootMemory bk bs) block).keycodeAt (i : Int)).mod = KMOD_NONE) ∧
    (PLAYBOOK_InitOSKeymap (bootMemory bk bs) block).Playbook_Keycodes.length = 256 := by
  rw [keycodeAt_init bk bs block i hi]
  refine ⟨?_, ?_, ?_, ?_⟩
  · intro h
    unfold asciiEntry
    rw [if_pos h]
    exact ⟨rfl, rfl⟩
  · intro h
    have hn : ¬ ((32 ≤ i ∧ i ≤ 64) ∨ (91 ≤ i ∧ i ≤ 122)) := by omega
    unfold asciiEntry
    rw [if_neg hn, if_pos h]
    exact ⟨rfl, rfl⟩
  · intro h
    have hn : ¬ ((32 ≤ i ∧ i ≤ 64) ∨ (91 ≤ i ∧ i ≤ 122)) := by omega
    have hn2 : ¬ (65 ≤ i ∧ i ≤ 90) := by omega
    unfold asciiEntry
    rw [if_neg hn, if_neg hn2]
    exact ⟨rfl, rfl⟩
  · rw [init_Playbook_Keycodes bk bs block]
    simp

/-- Witness of C9 at the entries of `A` (65), `a` (97) and 200. -/
theorem PLAYBOOK_InitOSKeymap_ascii_witness :
    (sampleMemory.keycodeAt 65).sym = 97 ∧ (sampleMemory.keycodeAt 65).mod = KMOD_LSHIFT ∧
    (sampleMemory.keycodeAt 97).sym = 97 ∧ (sampleMemory.keycodeAt 97).mod = KMOD_NONE ∧
    (sampleMemory.keycodeAt 200).sym = 0 ∧ (sampleMemory.keycodeAt 200).mod = KMOD_NONE :=
  ⟨((PLAYBOOK_InitOSKeymap_ascii (fun _ => ⟨7, 7, 7, 7⟩) (fun _ => 7) (fun _ => 7) 65
      (by decide)).2.1 (by decide)).1,
   ((PLAYBOOK_InitOSKeymap_ascii (fun _ => ⟨7, 7, 7, 7⟩) (fun _ => 7) (fun _ => 7) 65
      (by decide)).2.1 (by decide)).2,
   ((PLAYBOOK_InitOSKeymap_ascii (fun _ => ⟨7, 7, 7, 7⟩) (fun _ => 7) (fun _ => 7) 97
      (by decide)).1 (by decide)).1,
   ((PLAYBOOK_InitOSKeymap_ascii (fun _ => ⟨7, 7, 7, 7⟩) (fun _ => 7) (fun _ => 7) 97
      (by decide)).1 (by decide)).2,
   ((PLAYBOOK_InitOSKeymap_ascii (fun _ => ⟨7, 7, 7, 7⟩) (fun _ => 7) (fun _ => 7) 200
      (by decide)).2.2.1 (by decide)).1,
   ((PLAYBOOK_InitOSKeymap_ascii (fun _ => ⟨7, 7, 7, 7⟩) (fun _ => 7) (fun _ => 7) 200
      (by decide)).2.2.1 (by decide)).2⟩

/-! ## The switch of the virtual-keyboard decoder -/

theorem switchOn_of_not_mem (v : Int) (cs : List SwitchCase) (st : Int × SDL_keysym)
    (h : v ∉ cs.map (fun c => c.label)) : switchOn v cs st = st := by
  induction cs with
  | nil => rfl
  | cons c cs ih =>
    simp only [List.map_cons, List.mem_cons, not_or] at h
    simp only [switchOn, if_neg h.1]
    exact ih h.2

theorem switchOn_vkbCases_mem : ∀ l ∈ vkbLabels, ∃ n : Nat, 2 ≤ n ∧ n ≤ 57 ∧
    ∀ (sh : Int) (ks : SDL_keysym), switchOn l vkbCases (sh, ks)
      = (if l ∈ vkbShiftedSyms then 1 else sh, { ks with scancode := n }) := by
  simp only [vkbLabels, vkbCases, List.map_cons, List.map_nil, List.forall_mem_cons]
  and_intros
  all_goals first
    | exact ⟨_, by decide, by decide, fun sh ks => rfl⟩
    | (intro x hx; cases hx)

/-- The function `TranslateVKB` as one run of its switch. -/
theorem TranslateVKB_eq (M : Memory) (sym mods flags scan cap : Int) (ks : SDL_keysym) :
    TranslateVKB M sym mods flags scan cap ks =
      ((switchOn (M.load (symbolRead sym)) vkbCases
          (if mods % 2 = 1 then 1 else 0, { ks with sym := M.load (symbolRead sym) })).1,
       { (switchOn (M.load (symbolRead sym)) vkbCases
          (if mods % 2 = 1 then 1 else 0, { ks with sym := M.load (symbolRead sym) })).2
         with mod := KMOD_NONE }) := by
  have e1 : (cAnd mods 0x1 ≠ 0) = (mods % 2 = 1) := propext (cAnd_0x1 mods)
  unfold TranslateVKB
  simp only [e1]

/-- Every symbol with a `shifted = 1;` case is a label of the switch. -/
theorem vkbShiftedSyms_subset : ∀ v ∈ vkbShiftedSyms, v ∈ vkbLabels := by
  decide

/-- The `shifted` that `TranslateVKB` returns. -/
theorem TranslateVKB_fst (M : Memory) (sym mods flags scan cap : Int) (ks : SDL_keysym) :
    (TranslateVKB M sym mods flags scan cap ks).1 =
      if M.load (symbolRead sym) ∈ vkbShiftedSyms then 1 else if mods % 2 = 1 then 1 else 0 := by
  rw [TranslateVKB_eq]
  by_cases hmem : M.load (symbolRead sym) ∈ vkbLabels
  · obtain ⟨n, _, _, hn⟩ := switchOn_vkbCases_mem _ hmem
    rw [hn]
  · have hns : M.load (symbolRead sym) ∉ vkbShiftedSyms :=
      fun h => hmem (vkbShiftedSyms_subset _ h)
    rw [switchOn_of_not_mem _ _ _ hmem, if_neg hns]

/-- The scancode `TranslateVKB` leaves when the resolved symbol is a label of
the switch: one of the assigned codes 2..57. -/
theorem TranslateVKB_scancode_mem (M : Memory) (sym : Int)
    (hmem : M.load (symbolRead sym) ∈ vkbLabels) :
    ∃ n : Nat, 2 ≤ n ∧ n ≤ 57 ∧ ∀ (mods flags scan cap : Int) (ks : SDL_keysym),
      (TranslateVKB M sym mods flags scan cap ks).2.scancode = n := by
  obtain ⟨n, h2, h57, hn⟩ := switchOn_vkbCases_mem _ hmem
  refine ⟨n, h2, h57, ?_⟩
  intro mods flags scan cap ks
  rw [TranslateVKB_eq, hn]

/-- The scancode `TranslateVKB` leaves when the resolved symbol is no label
of the switch: the one the record held on entry. -/
theorem TranslateVKB_scancode_not_mem (M : Memory) (sym mods flags scan cap : Int)
    (ks : SDL_keysym) (hmem : M.load (symbolRead sym) ∉ vkbLabels) :
    (TranslateVKB M sym mods flags scan cap ks).2.scancode = ks.scancode := by
  rw [TranslateVKB_eq, switchOn_of_not_mem _ _ _ hmem]

/-! ## The virtual-keyboard decoder on the initialised tables -/

/-- The raw codes of the sixteen pairs are read from the ascii table, at
their own index, where the initialised table maps them to themselves. -/
theorem vkbShiftPairs_printable : ∀ p ∈ vkbShiftPairs,
    (symbolRead p.1 = TableRead.keycodes p.1 ∧ p.1 = ((p.1.toNat : Nat) : Int) ∧
      p.1.toNat < 256 ∧ (asciiEntry p.1.toNat).sym = p.1) ∧
    (symbolRead p.2 = TableRead.keycodes p.2 ∧ p.2 = ((p.2.toNat : Nat) : Int) ∧
      p.2.toNat < 256 ∧ (asciiEntry p.2.toNat).sym = p.2) := by
  decide

/-- On the sixteen pairs the switch sets `shifted` for the first component
and assigns both components the same scancode. -/
theorem switchOn_vkbShiftPairs : ∀ p ∈ vkbShiftPairs,
    ∀ (sh sh' : Int) (ks ks' : SDL_keysym),
      (switchOn p.1 vkbCases (sh, ks)).1 = 1 ∧
      (switchOn p.1 vkbCases (sh, ks)).2.scancode =
        (switchOn p.2 vkbCases (sh', ks')).2.scancode := by
  simp only [vkbShiftPairs, List.forall_mem_cons]
  and_intros
  all_goals first
    | exact fun sh sh' ks ks' => ⟨rfl, rfl⟩
    | (intro x hx; cases hx)

/-- C5 (amended to the sixteen pairs that have a case): with the tables built
by `PLAYBOOK_InitOSKeymap`, for each pair (shifted symbol, base symbol) among
(!,1) (@,2) (#,3) ($,4) (^,6) (&,7) (*,8) ((,9) (),0) (_,-) (+,=) (:,;)
(double-quote,quote) (<,comma) (>,.) (?,/) and every mods value, `TranslateVKB` fed the
raw ASCII code of the shifted symbol returns shifted = 1 and assigns the same
scancode as when fed the raw ASCII code of the base symbol. -/
theorem TranslateVKB_shift_pairs (bk : Int → SDL_keysym) (bs : Int → Int) (block : Nat → Int)
    (p : Int × Int) (hp : p ∈ vkbShiftPairs)
    (mods flags scan cap flags' scan' cap' : Int) (ks ks' : SDL_keysym) :
    (TranslateVKB (PLAYBOOK_InitOSKeymap (bootMemory bk bs) block) p.1 mods flags scan cap ks).1
      = 1 ∧
    (TranslateVKB (PLAYBOOK_InitOSKeymap (bootMemory bk bs) block) p.1 mods flags scan cap
        ks).2.scancode =
      (TranslateVKB (PLAYBOOK_InitOSKeymap (bootMemory bk bs) block) p.2 mods flags' scan' cap'
        ks').2.scancode := by
  obtain ⟨⟨r1, c1, l1, e1⟩, ⟨r2, c2, l2, e2⟩⟩ := vkbShiftPairs_printable p hp
  have hload1 : (PLAYBOOK_InitOSKeymap (bootMemory bk bs) block).load (symbolRead p.1) = p.1 := by
    rw [r1]
    show ((PLAYBOOK_InitOSKeymap (bootMemory bk bs) block).keycodeAt p.1).sym = p.1
    rw [c1, keycodeAt_init bk bs block _ l1, ← c1]
    exact e1
  have hload2 : (PLAYBOOK_InitOSKeymap (bootMemory bk bs) block).load (symbolRead p.2) = p.2 := by
    rw [r2]
    show ((PLAYBOOK_InitOSKeymap (bootMemory bk bs) block).keycodeAt p.2).sym = p.2
    rw [c2, keycodeAt_init bk bs block _ l2, ← c2]
    exact e2
  rw [TranslateVKB_eq, TranslateVKB_eq, hload1, hload2]
  exact switchOn_vkbShiftPairs p hp _ _ _ _

/-- Witness of C5 (amended) on the pair (!,1), shift bit of mods clear. -/
theorem TranslateVKB_shift_pairs_witness :
    (TranslateVKB sampleMemory 33 0 1 0 0 sampleFrame.keysym).1 = 1 ∧
    (TranslateVKB sampleMemory 33 0 1 0 0 sampleFrame.keysym).2.scancode =
      (TranslateVKB sampleMemory 49 0 1 0 0 zeroKeysym).2.scancode :=
  TranslateVKB_shift_pairs (fun _ => ⟨7, 7, 7, 7⟩) (fun _ => 7) (fun _ => 7) (33, 49)
    (by decide) 0 1 0 0 1 0 0 sampleFrame.keysym zeroKeysym

/-- C5 (counterexample): the raw code of `%` (37) with the shift bit of mods
clear comes back not shifted, and with the scancode the record held on entry
(99 here) instead of the 6 assigned to `5` (53). -/
theorem TranslateVKB_percent_not_shifted :
    (TranslateVKB sampleMemory 37 0 1 0 0 sampleFrame.keysym).1 = 0 ∧
    (TranslateVKB sampleMemory 37 0 1 0 0 sampleFrame.keysym).2.scancode = 99 ∧
    (TranslateVKB sampleMemory 53 0 1 0 0 sampleFrame.keysym).2.scancode = 6 := by
  decide

/-- C6: `TranslateVKB` leaves the modifier field `KMOD_NONE`; the symbol of
the record is the resolved one; the returned `shifted` is non-zero exactly
when bit 0 of mods is set or the resolved symbol is one of the sixteen
symbols ! @ # $ ^ & * ( ) _ + : double-quote < > ?; and the result is the same for all
values of flags, scan and cap. -/
theorem TranslateVKB_shifted_iff (M : Memory) (sym mods flags scan cap : Int) (ks : SDL_keysym) :
    (TranslateVKB M sym mods flags scan cap ks).2.mod = KMOD_NONE ∧
    (TranslateVKB M sym mods flags scan cap ks).2.sym = M.load (symbolRead sym) ∧
    ((TranslateVKB M sym mods flags scan cap ks).1 ≠ 0 ↔
      (mods % 2 = 1 ∨ (TranslateVKB M sym mods flags scan cap ks).2.sym ∈ vkbShiftedSyms)) ∧
    vkbShiftedSyms = [33, 64, 35, 36, 94, 38, 42, 40, 41, 95, 43, 58, 34, 60, 62, 63] ∧
    (∀ flags' scan' cap' : Int,
      TranslateVKB M sym mods flags' scan' cap' ks = TranslateVKB M sym mods flags scan cap ks) := by
  have hsym : (TranslateVKB M sym mods flags scan cap ks).2.sym = M.load (symbolRead sym) := by
    rw [TranslateVKB_eq]
    by_cases hmem : M.load (symbolRead sym) ∈ vkbLabels
    · obtain ⟨n, _, _, hn⟩ := switchOn_vkbCases_mem _ hmem
      rw [hn]
    · rw [switchOn_of_not_mem _ _ _ hmem]
  refine ⟨?_, hsym, ?_, rfl, fun _ _ _ => rfl⟩
  · rw [TranslateVKB_eq]
  · rw [hsym, TranslateVKB_fst]
    by_cases hs : M.load (symbolRead sym) ∈ vkbShiftedSyms
    · simp [hs]
    · by_cases hm : mods % 2 = 1
      · simp [hs, hm]
      · simp [hs, hm]

/-- C7 (the code at the failing input): the virtual-keyboard press of `%`
(raw code 37, no case in the switch) is posted with the scancode that the
uninitialised `keysym` of `handleKeyboardEvent` held, 99 here, not 0. -/
theorem handleKeyboardEvent_unmapped_scancode :
    handleKeyboardEvent sampleMemory ⟨37, 0, 1, 0, 0⟩ sampleFrame =
      [SinkEvent.key SDL_PRESSED ⟨99, 37, KMOD_NONE, 99⟩] ∧
    sampleFrame.keysym.scancode = 99 ∧
    (37 : Int) ∉ vkbLabels := by
  decide

/-! ## The modifier mask of the hardware-keyboard decoder -/

/-- The mask built from five bits of `mods`, bit by bit. -/
theorem bluetoothMod_bits (mods : Int) :
    (bluetoothMod mods &&& KMOD_LSHIFT ≠ 0 ↔ mods % 2 = 1) ∧
    (bluetoothMod mods &&& KMOD_LCTRL ≠ 0 ↔ mods / 2 % 2 = 1) ∧
    (bluetoothMod mods &&& KMOD_LALT ≠ 0 ↔ mods / 4 % 2 = 1) ∧
    (bluetoothMod mods &&& KMOD_CAPS ≠ 0 ↔ mods / 65536 % 2 = 1) ∧
    (bluetoothMod mods &&& KMOD_NUM ≠ 0 ↔ mods / 131072 % 2 = 1) ∧
    bluetoothMod mods &&& (KMOD_LSHIFT ||| KMOD_LCTRL ||| KMOD_LALT ||| KMOD_CAPS ||| KMOD_NUM)
      = bluetoothMod mods ∧
    bluetoothMod mods &&& (KMOD_RSHIFT ||| KMOD_RCTRL ||| KMOD_RALT ||| KMOD_LMETA |||
      KMOD_RMETA ||| KMOD_MODE) = 0 := by
  unfold bluetoothMod
  by_cases c1 : mods % 2 = 1 <;> by_cases c2 : mods / 2 % 2 = 1 <;>
    by_cases c3 : mods / 4 % 2 = 1 <;> by_cases c4 : mods / 65536 % 2 = 1 <;>
    by_cases c5 : mods / 131072 % 2 = 1 <;>
    simp only [c1, c2, c3, c4, c5, if_true, if_false] <;> decide

/-- C8: when flags are not 32, the modifier mask `TranslateBluetoothKeyboard`
produces contains left-shift iff bit 0x1 of mods is set, left-ctrl iff bit
0x2, left-alt iff bit 0x4, caps-lock iff bit 0x10000, num-lock iff bit
0x20000; it contains no other modifier (no right-hand variant, meta or
mode); and two mods values that agree on these five bits give the same
result. -/
theorem TranslateBluetoothKeyboard_mod (M : Memory) (sym mods flags scan cap : Int)
    (ks : SDL_keysym) (hflags : flags ≠ 32) :
    ((TranslateBluetoothKeyboard M sym mods flags scan cap ks).2.mod &&& KMOD_LSHIFT ≠ 0 ↔
      mods % 2 = 1) ∧
    ((TranslateBluetoothKeyboard M sym mods flags scan cap ks).2.mod &&& KMOD_LCTRL ≠ 0 ↔
      mods / 2 % 2 = 1) ∧
    ((TranslateBluetoothKeyboard M sym mods flags scan cap ks).2.mod &&& KMOD_LALT ≠ 0 ↔
      mods / 4 % 2 = 1) ∧
    ((TranslateBluetoothKeyboard M sym mods flags scan cap ks).2.mod &&& KMOD_CAPS ≠ 0 ↔
      mods / 65536 % 2 = 1) ∧
    ((TranslateBluetoothKeyboard M sym mods flags scan cap ks).2.mod &&& KMOD_NUM ≠ 0 ↔
      mods / 131072 % 2 = 1) ∧
    (TranslateBluetoothKeyboard M sym mods flags scan cap ks).2.mod &&&
      (KMOD_LSHIFT ||| KMOD_LCTRL ||| KMOD_LALT ||| KMOD_CAPS ||| KMOD_NUM)
      = (TranslateBluetoothKeyboard M sym mods flags scan cap ks).2.mod ∧
    (TranslateBluetoothKeyboard M sym mods flags scan cap ks).2.mod &&&
      (KMOD_RSHIFT ||| KMOD_RCTRL ||| KMOD_RALT ||| KMOD_LMETA ||| KMOD_RMETA ||| KMOD_MODE)
      = 0 ∧
    (∀ mods' : Int, mods' % 2 = mods % 2 → mods' / 2 % 2 = mods / 2 % 2 →
      mods' / 4 % 2 = mods / 4 % 2 → mods' / 65536 % 2 = mods / 65536 % 2 →
      mods' / 131072 % 2 = mods / 131072 % 2 →
      TranslateBluetoothKeyboard M sym mods' flags scan cap ks =
        TranslateBluetoothKeyboard M sym mods flags scan cap ks) := by
  have hmod : (TranslateBluetoothKeyboard M sym mods flags scan cap ks).2.mod
      = bluetoothMod mods := by
    rw [TranslateBluetoothKeyboard_eq M sym mods flags scan cap ks hflags]
  obtain ⟨b1, b2, b3, b4, b5, b6, b7⟩ := bluetoothMod_bits mods
  rw [hmod]
  refine ⟨b1, b2, b3, b4, b5, b6, b7, ?_⟩
  intro mods' e1 e2 e3 e4 e5
  rw [TranslateBluetoothKeyboard_eq M sym mods' flags scan cap ks hflags,
    TranslateBluetoothKeyboard_eq M sym mods flags scan cap ks hflags]
  have hb : bluetoothMod mods' = bluetoothMod mods := by
    unfold bluetoothMod
    rw [e1, e2, e3, e4, e5]
  rw [hb]

/-- Witness of C8: mods 0x10003 (shift, ctrl, caps) gives the mask
`KMOD_LSHIFT | KMOD_LCTRL | KMOD_CAPS`, and so does 0x10003 with the unused
bits 0x8 and 0x40000 added. -/
theorem TranslateBluetoothKeyboard_mod_witness :
    (TranslateBluetoothKeyboard sampleMemory 97 0x10003 0xe1 30 0 zeroKeysym).2.mod =
      (KMOD_LSHIFT ||| KMOD_LCTRL ||| KMOD_CAPS) ∧
    TranslateBluetoothKeyboard sampleMemory 97 0x5000b 0xe1 30 0 zeroKeysym =
      TranslateBluetoothKeyboard sampleMemory 97 0x10003 0xe1 30 0 zeroKeysym :=
  ⟨by decide,
   (TranslateBluetoothKeyboard_mod sampleMemory 97 0x10003 0xe1 30 0 zeroKeysym
      (by decide)).2.2.2.2.2.2.2 0x5000b (by decide) (by decide) (by decide) (by decide)
      (by decide)⟩

/-! ## Pointer decoder -/

/-- After a call of `handlePointerEvent`, `lastButtonState` is the button
state of the event handled. -/
theorem handlePointerEvent_lastButtonState (s : DecoderState) (e : PointerEvent) (b : Nat) :
    (handlePointerEvent s e b).1.lastButtonState = e.buttonState := by
  unfold handlePointerEvent
  by_cases h : s.lastButtonState = e.buttonState
  · simp only [if_pos h]
    exact h
  · simp only [if_neg h]

/-- C10 (counterexample): two pointer events with the same button state 0,
the second with wheel delta 1: handling the second posts two button events,
press and release of the wheel-down button. -/
theorem handlePointerEvent_second_wheel :
    (handlePointerEvent (handlePointerEvent DecoderState.initial ⟨0, 1, 2, 1, 2, 0⟩ 0).1
      ⟨0, 3, 4, 3, 4, 1⟩ 0).2 =
      [SinkEvent.button SDL_PRESSED SDL_BUTTON_WHEELDOWN 0 0,
       SinkEvent.button SDL_RELEASED SDL_BUTTON_WHEELDOWN 0 0] := by
  decide

/-- C10 (amended): for every state and every two pointer events with the same
button-state bitmask handled one right after the other, handling the second
posts no event for the left button: it posts nothing when its wheel delta is
0, and otherwise only the press and release of the wheel button. -/
theorem handlePointerEvent_debounce (s : DecoderState) (e1 e2 : PointerEvent) (b1 b2 : Nat)
    (hsame : e1.buttonState = e2.buttonState) :
    (handlePointerEvent (handlePointerEvent s e1 b1).1 e2 b2).2 =
      (if e2.wheel_delta = 0 then []
       else [SinkEvent.button SDL_PRESSED
               (if e2.wheel_delta > 0 then SDL_BUTTON_WHEELDOWN else SDL_BUTTON_WHEELUP) 0 0,
             SinkEvent.button SDL_RELEASED
               (if e2.wheel_delta > 0 then SDL_BUTTON_WHEELDOWN else SDL_BUTTON_WHEELUP) 0 0]) ∧
    (∀ (st : Nat) (x y : Int), SinkEvent.button st SDL_BUTTON_LEFT x y ∉
      (handlePointerEvent (handlePointerEvent s e1 b1).1 e2 b2).2) := by
  have hlast : (handlePointerEvent s e1 b1).1.lastButtonState = e2.buttonState := by
    rw [handlePointerEvent_lastButtonState, hsame]
  have hout : (handlePointerEvent (handlePointerEvent s e1 b1).1 e2 b2).2 =
      (if e2.wheel_delta = 0 then []
       else [SinkEvent.button SDL_PRESSED
               (if e2.wheel_delta > 0 then SDL_BUTTON_WHEELDOWN else SDL_BUTTON_WHEELUP) 0 0,
             SinkEvent.button SDL_RELEASED
               (if e2.wheel_delta > 0 then SDL_BUTTON_WHEELDOWN else SDL_BUTTON_WHEELUP) 0 0]) := by
    generalize handlePointerEvent s e1 b1 = r at hlast
    unfold handlePointerEvent
    simp only [if_pos hlast]
    by_cases hw : e2.wheel_delta = 0
    · simp [hw]
    · by_cases hpos : e2.wheel_delta > 0
      · simp [hw, hpos]
      · have hneg : e2.wheel_delta < 0 := by omega
        simp [hw, hpos, hneg]
  refine ⟨hout, ?_⟩
  intro st x y hmem
  rw [hout] at hmem
  by_cases hw : e2.wheel_delta = 0
  · simp [hw] at hmem
  · by_cases hpos : e2.wheel_delta > 0
    · simp [hw, hpos] at hmem
    · simp [hw, hpos] at hmem

/-- Witness of C10 (amended): two moves with the left button held (state 1),
no wheel: the second posts nothing. -/
theorem handlePointerEvent_debounce_witness :
    (handlePointerEvent (handlePointerEvent DecoderState.initial ⟨1, 1, 2, 1, 2, 0⟩ 0).1
      ⟨1, 3, 4, 3, 4, 0⟩ 0).2 = [] :=
  (handlePointerEvent_debounce DecoderState.initial ⟨1, 1, 2, 1, 2, 0⟩ ⟨1, 3, 4, 3, 4, 0⟩ 0 0
    rfl).1

/-! ## Pointer decoder: buffered motion and button transitions -/

/-- The calls `handlePointerEvent` makes: the wheel pair for a non-zero
wheel delta, then the left-button transition when the button state differs
from `lastButtonState`. -/
theorem handlePointerEvent_out (s : DecoderState) (e : PointerEvent) (b : Nat) :
    (handlePointerEvent s e b).2 =
      (if e.wheel_delta = 0 then []
       else [SinkEvent.button SDL_PRESSED
               (if e.wheel_delta > 0 then SDL_BUTTON_WHEELDOWN else SDL_BUTTON_WHEELUP) 0 0,
             SinkEvent.button SDL_RELEASED
               (if e.wheel_delta > 0 then SDL_BUTTON_WHEELDOWN else SDL_BUTTON_WHEELUP) 0 0]) ++
      (if s.lastButtonState = e.buttonState then []
       else [SinkEvent.button (if e.buttonState ≠ 0 then SDL_PRESSED else SDL_RELEASED)
               SDL_BUTTON_LEFT e.coords0 e.coords1]) := by
  unfold handlePointerEvent
  by_cases hl : s.lastButtonState = e.buttonState
  · by_cases hw : e.wheel_delta = 0
    · simp [hl, hw]
    · by_cases hpos : e.wheel_delta > 0
      · simp [hl, hw, hpos]
      · have hneg : e.wheel_delta < 0 := by omega
        simp [hl, hw, hpos, hneg]
  · by_cases hw : e.wheel_delta = 0
    · simp [hl, hw]
    · by_cases hpos : e.wheel_delta > 0
      · simp [hl, hw, hpos]
      · have hneg : e.wheel_delta < 0 := by omega
        simp [hl, hw, hpos, hneg]

/-- The statics `handlePointerEvent` leaves when the button state equals
`lastButtonState`: the sample is buffered in `moveEvent`. -/
theorem handlePointerEvent_same (s : DecoderState) (e : PointerEvent) (b : Nat)
    (h : s.lastButtonState = e.buttonState) :
    (handlePointerEvent s e b).1 =
      { s with moveEvent := ⟨1, e.buttonState, e.coords0, e.coords1⟩ } := by
  unfold handlePointerEvent
  simp only [if_pos h]

/-- The statics `handlePointerEvent` leaves when the button state differs
from `lastButtonState`. -/
theorem handlePointerEvent_changed (s : DecoderState) (e : PointerEvent) (b : Nat)
    (h : s.lastButtonState ≠ e.buttonState) :
    (handlePointerEvent s e b).1 =
      { s with lastButtonState := e.buttonState,
               moveEvent := { s.moveEvent with pending := 0 } } := by
  unfold handlePointerEvent
  simp only [if_neg h]

/-- C11: after two pointer events with the same button-state bitmask `m`
handled consecutively, `moveEvent` is pending with touching = `m` and the
source position of the second event; the flush at the end of
`PLAYBOOK_PumpEvents` then posts exactly one motion event, at that position,
with the left button held iff `m` is non-zero, and clears pending. -/
theorem handlePointerEvent_buffers_second (s : DecoderState) (e1 e2 : PointerEvent)
    (b1 b2 : Nat) (hsame : e1.buttonState = e2.buttonState) :
    (handlePointerEvent (handlePointerEvent s e1 b1).1 e2 b2).1.moveEvent =
      ⟨1, e2.buttonState, e2.coords0, e2.coords1⟩ ∧
    (pumpFlush (handlePointerEvent (handlePointerEvent s e1 b1).1 e2 b2).1).2 =
      [SinkEvent.motion (if e2.buttonState ≠ 0 then SDL_BUTTON_LEFT else 0) 0
        e2.coords0 e2.coords1] ∧
    (pumpFlush (handlePointerEvent (handlePointerEvent s e1 b1).1 e2 b2).1).1.moveEvent.pending
      = 0 := by
  have hlast : (handlePointerEvent s e1 b1).1.lastButtonState = e2.buttonState := by
    rw [handlePointerEvent_lastButtonState, hsame]
  rw [handlePointerEvent_same _ e2 b2 hlast]
  refine ⟨rfl, ?_, ?_⟩
  · simp [pumpFlush]
  · simp [pumpFlush]

/-- Witness of C11: two moves with the left button held (state 1); the
position (3, 4) of the second is the one flushed. -/
theorem handlePointerEvent_buffers_second_witness :
    (pumpFlush (handlePointerEvent (handlePointerEvent DecoderState.initial
        ⟨1, 1, 2, 1, 2, 0⟩ 0).1 ⟨1, 3, 4, 3, 4, 0⟩ 0).1).2 =
      [SinkEvent.motion SDL_BUTTON_LEFT 0 3 4] :=
  (handlePointerEvent_buffers_second DecoderState.initial ⟨1, 1, 2, 1, 2, 0⟩
    ⟨1, 3, 4, 3, 4, 0⟩ 0 0 rfl).2.1

/-- C12: a pointer event with non-zero button-state bitmask `m` handled
while `lastButtonState` is 0 posts exactly one left-button event, a press at
the source position of the event; afterwards `moveEvent.pending` is 0 and
`lastButtonState` is `m`. -/
theorem handlePointerEvent_press (s : DecoderState) (e : PointerEvent) (b : Nat)
    (hlast : s.lastButtonState = 0) (hm : e.buttonState ≠ 0) :
    (handlePointerEvent s e b).2.filter (SinkEvent.isButton SDL_BUTTON_LEFT) =
      [SinkEvent.button SDL_PRESSED SDL_BUTTON_LEFT e.coords0 e.coords1] ∧
    (handlePointerEvent s e b).1.moveEvent.pending = 0 ∧
    (handlePointerEvent s e b).1.lastButtonState = e.buttonState := by
  have hne : s.lastButtonState ≠ e.buttonState := by
    rw [hlast]; exact fun h => hm h.symm
  refine ⟨?_, ?_, handlePointerEvent_lastButtonState s e b⟩
  · rw [handlePointerEvent_out, if_neg hne, if_pos hm]
    by_cases hw : e.wheel_delta = 0
    · simp [hw, SinkEvent.isButton]
    · by_cases hpos : e.wheel_delta > 0
      · simp [hw, hpos, SinkEvent.isButton]
      · simp [hw, hpos, SinkEvent.isButton]
  · rw [handlePointerEvent_changed s e b hne]

/-- Witness of C12: button state 1 at (8, 9) with a wheel step, from the
statics at program start. -/
theorem handlePointerEvent_press_witness :
    (handlePointerEvent DecoderState.initial ⟨1, 8, 9, 0, 0, -1⟩ 0).2.filter
        (SinkEvent.isButton SDL_BUTTON_LEFT) =
      [SinkEvent.button SDL_PRESSED SDL_BUTTON_LEFT 8 9] ∧
    (handlePointerEvent DecoderState.initial ⟨1, 8, 9, 0, 0, -1⟩ 0).1.moveEvent.pending = 0 ∧
    (handlePointerEvent DecoderState.initial ⟨1, 8, 9, 0, 0, -1⟩ 0).1.lastButtonState = 1 :=
  handlePointerEvent_press DecoderState.initial ⟨1, 8, 9, 0, 0, -1⟩ 0 rfl (by decide)

/-- C14: for a non-zero wheel delta `handlePointerEvent` first posts a press
and then a release of one wheel button, both at (0, 0), before anything
else, and no further wheel-button event; the button is wheel-down for a
positive delta and wheel-up for a negative one, whatever the other fields
and the statics. For wheel delta 0 it posts no wheel-button event. -/
theorem handlePointerEvent_wheel (s : DecoderState) (e : PointerEvent) (b : Nat) :
    (e.wheel_delta ≠ 0 → ∃ rest : List SinkEvent,
      (handlePointerEvent s e b).2 =
        SinkEvent.button SDL_PRESSED
            (if e.wheel_delta > 0 then SDL_BUTTON_WHEELDOWN else SDL_BUTTON_WHEELUP) 0 0 ::
          SinkEvent.button SDL_RELEASED
            (if e.wheel_delta > 0 then SDL_BUTTON_WHEELDOWN else SDL_BUTTON_WHEELUP) 0 0 ::
          rest ∧
      ∀ ev ∈ rest, ev.isWheel = false) ∧
    (e.wheel_delta = 0 → ∀ ev ∈ (handlePointerEvent s e b).2, ev.isWheel = false) ∧
    SDL_BUTTON_WHEELDOWN ≠ SDL_BUTTON_WHEELUP := by
  refine ⟨?_, ?_, by decide⟩
  · intro hw
    refine ⟨if s.lastButtonState = e.buttonState then []
       else [SinkEvent.button (if e.buttonState ≠ 0 then SDL_PRESSED else SDL_RELEASED)
               SDL_BUTTON_LEFT e.coords0 e.coords1], ?_, ?_⟩
    · rw [handlePointerEvent_out, if_neg hw]
      rfl
    · intro ev hev
      by_cases hl : s.lastButtonState = e.buttonState
      · simp [hl] at hev
      · simp only [if_neg hl, List.mem_singleton] at hev
        rw [hev]
        rfl
  · intro hw ev hev
    rw [handlePointerEvent_out, if_pos hw] at hev
    by_cases hl : s.lastButtonState = e.buttonState
    · simp [hl] at hev
    · simp only [if_neg hl, List.nil_append, List.mem_singleton] at hev
      rw [hev]
      rfl

/-- Witness of C14: wheel delta -1 together with a button press at (8, 9). -/
theorem handlePointerEvent_wheel_witness :
    ∃ rest : List SinkEvent,
      (handlePointerEvent DecoderState.initial ⟨1, 8, 9, 0, 0, -1⟩ 0).2 =
        SinkEvent.button SDL_PRESSED SDL_BUTTON_WHEELUP 0 0 ::
          SinkEvent.button SDL_RELEASED SDL_BUTTON_WHEELUP 0 0 :: rest ∧
      ∀ ev ∈ rest, ev.isWheel = false :=
  (handlePointerEvent_wheel DecoderState.initial ⟨1, 8, 9, 0, 0, -1⟩ 0).1 (by decide)

/-! ## Sequences of pointer events -/

/-- The alternation of length `n + 1` ends in a press when `n` is even and
in a release when `n` is odd. -/
theorem alternation_succ (n : Nat) :
    alternation (n + 1) = alternation n ++ [if n % 2 = 0 then SDL_PRESSED else SDL_RELEASED] := by
  simp [alternation, List.range_succ]

/-- The length of an alternation. -/
theorem alternation_length (n : Nat) : (alternation n).length = n := by
  simp [alternation]

/-- An alternation ends in a press exactly when its length is odd. -/
theorem alternation_getLast (n : Nat) :
    (alternation n).getLast? = some SDL_PRESSED ↔ n % 2 = 1 := by
  cases n with
  | zero => simp [alternation]
  | succ k =>
    rw [alternation_succ, List.getLast?_append]
    by_cases hk : k % 2 = 0
    · simp [hk]; omega
    · simp [hk]; omega

/-- The left-button states of two runs of calls, one after the other. -/
theorem leftStates_append (a b : List SinkEvent) :
    leftStates (a ++ b) = leftStates a ++ leftStates b := by
  simp [leftStates, List.filterMap_append]

/-- The left-button states of one call of `handlePointerEvent`: none when
the button state equals `lastButtonState`, else the one transition. -/
theorem leftStates_handlePointerEvent (s : DecoderState) (e : PointerEvent) (b : Nat) :
    leftStates (handlePointerEvent s e b).2 =
      if s.lastButtonState = e.buttonState then []
      else [if e.buttonState ≠ 0 then SDL_PRESSED else SDL_RELEASED] := by
  rw [handlePointerEvent_out, leftStates_append]
  by_cases hl : s.lastButtonState = e.buttonState
  · by_cases hw : e.wheel_delta = 0
    · simp [hl, hw, leftStates]
    · by_cases hpos : e.wheel_delta > 0
      · simp [hl, hw, hpos, leftStates]
      · simp [hl, hw, hpos, leftStates]
  · by_cases hw : e.wheel_delta = 0
    · simp [hl, hw, leftStates]
    · by_cases hpos : e.wheel_delta > 0
      · simp [hl, hw, hpos, leftStates]
      · simp [hl, hw, hpos, leftStates]

/-- A run of pointer events extended by one event. -/
theorem runPointer_snoc (s : DecoderState) (es : List (PointerEvent × Nat))
    (e : PointerEvent × Nat) :
    runPointer s (es ++ [e]) =
      ((handlePointerEvent (runPointer s es).1 e.1 e.2).1,
       (runPointer s es).2 ++ (handlePointerEvent (runPointer s es).1 e.1 e.2).2) := by
  simp [runPointer, List.foldl_append]

/-- Along a run of pointer events from `lastButtonState` 0, a release is
never followed by a release, and while `lastButtonState` is non-zero the
last left-button event posted is a press. -/
theorem runPointer_no_double_release (s : DecoderState) (h0 : s.lastButtonState = 0)
    (es : List (PointerEvent × Nat)) :
    List.Chain' (fun a b => ¬ (a = SDL_RELEASED ∧ b = SDL_RELEASED))
      (leftStates (runPointer s es).2) ∧
    ((runPointer s es).1.lastButtonState ≠ 0 →
      (leftStates (runPointer s es).2).getLast? = some SDL_PRESSED) := by
  induction es using List.reverseRecOn with
  | nil =>
    refine ⟨by simp [runPointer, leftStates], ?_⟩
    intro h
    exact absurd h0 h
  | append_singleton es e ih =>
    obtain ⟨ihc, ihl⟩ := ih
    rw [runPointer_snoc]
    simp only [leftStates_append, leftStates_handlePointerEvent,
      handlePointerEvent_lastButtonState]
    by_cases hl : (runPointer s es).1.lastButtonState = e.1.buttonState
    · simp only [if_pos hl, List.append_nil]
      exact ⟨ihc, fun h => ihl (by rw [hl]; exact h)⟩
    · simp only [if_neg hl]
      by_cases hb : e.1.buttonState = 0
      · have hprev : (runPointer s es).1.lastButtonState ≠ 0 := by
          rw [hb] at hl; exact hl
        refine ⟨?_, fun h => absurd hb h⟩
        rw [List.chain'_append]
        refine ⟨ihc, by simp, ?_⟩
        intro x hx y _ hxy
        rw [ihl hprev] at hx
        simp at hx
        rw [← hx] at hxy
        exact absurd hxy.1 (by decide)
      · refine ⟨?_, fun _ => by simp [hb]⟩
        rw [List.chain'_append]
        refine ⟨ihc, by simp, ?_⟩
        intro x _ y hy hxy
        simp [hb] at hy
        rw [← hy] at hxy
        exact absurd hxy.2 (by decide)

/-- Along a run of pointer events from `lastButtonState` 0 whose button
states are all 0 or `m`, the left-button events alternate, beginning with a
press, and `lastButtonState` is non-zero exactly after an odd number. -/
theorem runPointer_two_valued (s : DecoderState) (h0 : s.lastButtonState = 0) (m : Int)
    (es : List (PointerEvent × Nat))
    (hes : ∀ e ∈ es, e.1.buttonState = 0 ∨ e.1.buttonState = m) :
    leftStates (runPointer s es).2 = alternation (leftStates (runPointer s es).2).length ∧
    ((runPointer s es).1.lastButtonState ≠ 0 ↔
      (leftStates (runPointer s es).2).length % 2 = 1) ∧
    ((runPointer s es).1.lastButtonState = 0 ∨ (runPointer s es).1.lastButtonState = m) := by
  induction es using List.reverseRecOn with
  | nil => simp [runPointer, leftStates, alternation, h0]
  | append_singleton es e ih =>
    have hes' : ∀ x ∈ es, x.1.buttonState = 0 ∨ x.1.buttonState = m :=
      fun x hx => hes x (List.mem_append_left _ hx)
    have he : e.1.buttonState = 0 ∨ e.1.buttonState = m :=
      hes e (List.mem_append_right _ (List.mem_singleton_self e))
    obtain ⟨iha, ihp, ihv⟩ := ih hes'
    rw [runPointer_snoc]
    simp only [leftStates_append, leftStates_handlePointerEvent,
      handlePointerEvent_lastButtonState]
    by_cases hl : (runPointer s es).1.lastButtonState = e.1.buttonState
    · simp only [if_pos hl, List.append_nil]
      exact ⟨iha, by rw [← hl]; exact ihp, he⟩
    · simp only [if_neg hl, List.length_append, List.length_singleton]
      refine ⟨?_, ?_, he⟩
      · rw [alternation_succ, ← iha]
        by_cases hb : e.1.buttonState = 0
        · have hprev : (runPointer s es).1.lastButtonState ≠ 0 := by
            rw [hb] at hl; exact hl
          have hodd := ihp.1 hprev
          have hne : ¬ (leftStates (runPointer s es).2).length % 2 = 0 := by omega
          simp [hb, hne]
        · have hprev : (runPointer s es).1.lastButtonState = 0 := by
            rcases ihv with h | h
            · exact h
            · rcases he with h' | h'
              · exact absurd h' hb
              · exact absurd (h.trans h'.symm) hl
          have heven : (leftStates (runPointer s es).2).length % 2 = 0 := by
            by_contra hc
            have : (leftStates (runPointer s es).2).length % 2 = 1 := by omega
            exact ihp.2 this hprev
          simp [hb, heven]
      · by_cases hb : e.1.buttonState = 0
        · have hprev : (runPointer s es).1.lastButtonState ≠ 0 := by
            rw [hb] at hl; exact hl
          have hodd := ihp.1 hprev
          constructor
          · intro h; exact absurd hb h
          · intro h; omega
        · have hprev : (runPointer s es).1.lastButtonState = 0 := by
            rcases ihv with h | h
            · exact h
            · rcases he with h' | h'
              · exact absurd h' hb
              · exact absurd (h.trans h'.symm) hl
          have heven : (leftStates (runPointer s es).2).length % 2 = 0 := by
            by_contra hc
            have : (leftStates (runPointer s es).2).length % 2 = 1 := by omega
            exact ihp.2 this hprev
          constructor
          · intro _; omega
          · intro _; exact hb

/-- After a run of pointer events `lastButtonState` is the button state of
the last event handled, or the initial one when there was none. -/
theorem runPointer_lastButtonState (s : DecoderState) (es : List (PointerEvent × Nat)) :
    (runPointer s es).1.lastButtonState =
      ((es.map (fun e => e.1.buttonState)).getLast?).getD s.lastButtonState := by
  induction es using List.reverseRecOn with
  | nil => simp [runPointer]
  | append_singleton es e _ =>
    rw [runPointer_snoc]
    simp [handlePointerEvent_lastButtonState]

/-- An alternation has no two equal neighbours. -/
theorem alternation_chain (n : Nat) : List.Chain' (fun a b => a ≠ b) (alternation n) := by
  induction n with
  | zero => simp [alternation]
  | succ k ih =>
    rw [alternation_succ, List.chain'_append]
    refine ⟨ih, by simp, ?_⟩
    intro x hx y hy
    cases k with
    | zero => simp [alternation] at hx
    | succ j =>
      rw [alternation_succ, List.getLast?_append] at hx
      simp at hx hy
      subst hx
      subst hy
      by_cases hj : j % 2 = 0
      · have hj1 : ¬ (j + 1) % 2 = 0 := by omega
        simp [hj, hj1]
      · have hj1 : (j + 1) % 2 = 0 := by omega
        simp [hj, hj1]

/-- Along a run of pointer events from `lastButtonState` 0 in which the
button state never changes directly between two different non-zero values,
the left-button events alternate, beginning with a press, and
`lastButtonState` is non-zero exactly after an odd number of them. -/
theorem runPointer_via_zero (s : DecoderState) (h0 : s.lastButtonState = 0)
    (es : List (PointerEvent × Nat))
    (hes : List.Chain' (fun a b : Int => a = b ∨ a = 0 ∨ b = 0)
      (es.map (fun e => e.1.buttonState))) :
    leftStates (runPointer s es).2 = alternation (leftStates (runPointer s es).2).length ∧
    ((runPointer s es).1.lastButtonState ≠ 0 ↔
      (leftStates (runPointer s es).2).length % 2 = 1) := by
  induction es using List.reverseRecOn with
  | nil => simp [runPointer, leftStates, alternation, h0]
  | append_singleton es e ih =>
    rw [List.map_append, List.chain'_append] at hes
    obtain ⟨hpre, _, hlink⟩ := hes
    obtain ⟨iha, ihp⟩ := ih hpre
    have hrel : (runPointer s es).1.lastButtonState = e.1.buttonState ∨
        (runPointer s es).1.lastButtonState = 0 ∨ e.1.buttonState = 0 := by
      rw [runPointer_lastButtonState]
      cases hl : (es.map (fun e => e.1.buttonState)).getLast? with
      | none => right; left; simp [h0]
      | some x =>
        have := hlink x (by rw [hl]; rfl) e.1.buttonState (by simp)
        simpa using this
    rw [runPointer_snoc]
    simp only [leftStates_append, leftStates_handlePointerEvent,
      handlePointerEvent_lastButtonState]
    by_cases hl : (runPointer s es).1.lastButtonState = e.1.buttonState
    · simp only [if_pos hl, List.append_nil]
      exact ⟨iha, by rw [← hl]; exact ihp⟩
    · simp only [if_neg hl, List.length_append, List.length_singleton]
      by_cases hb : e.1.buttonState = 0
      · have hprev : (runPointer s es).1.lastButtonState ≠ 0 := by
          rw [hb] at hl; exact hl
        have hodd := ihp.1 hprev
        have hne : ¬ (leftStates (runPointer s es).2).length % 2 = 0 := by omega
        refine ⟨?_, ⟨fun h => absurd hb h, fun h => by omega⟩⟩
        rw [alternation_succ, ← iha]
        simp [hb, hne]
      · have hprev : (runPointer s es).1.lastButtonState = 0 := by
          rcases hrel with h | h | h
          · exact absurd h hl
          · exact h
          · exact absurd h hb
        have heven : (leftStates (runPointer s es).2).length % 2 = 0 := by
          by_contra hc
          have : (leftStates (runPointer s es).2).length % 2 = 1 := by omega
          exact ihp.2 this hprev
        refine ⟨?_, ⟨fun _ => by omega, fun _ => hb⟩⟩
        rw [alternation_succ, ← iha]
        simp [hb, heven]

/-- Along a run of pointer events from `lastButtonState` 0, if no two
consecutive left-button events are both presses or both releases, then the
button state never changed directly between two different non-zero
values. -/
theorem runPointer_via_zero_of_chain (s : DecoderState) (h0 : s.lastButtonState = 0)
    (es : List (PointerEvent × Nat))
    (hch : List.Chain' (fun a b => a ≠ b) (leftStates (runPointer s es).2)) :
    List.Chain' (fun a b : Int => a = b ∨ a = 0 ∨ b = 0)
      (es.map (fun e => e.1.buttonState)) := by
  induction es using List.reverseRecOn with
  | nil => simp
  | append_singleton es e ih =>
    rw [runPointer_snoc] at hch
    simp only [leftStates_append, leftStates_handlePointerEvent] at hch
    rw [List.chain'_append] at hch
    obtain ⟨hL, _, hlink⟩ := hch
    have hpre := ih hL
    obtain ⟨iha, ihp⟩ := runPointer_via_zero s h0 es hpre
    rw [List.map_append, List.chain'_append]
    refine ⟨hpre, by simp, ?_⟩
    intro x hx y hy
    simp at hy
    subst hy
    have hlast : (runPointer s es).1.lastButtonState = x := by
      rw [runPointer_lastButtonState]
      rw [Option.mem_def] at hx
      rw [hx]
      rfl
    by_contra hrel
    simp only [not_or] at hrel
    obtain ⟨r1, r2, r3⟩ := hrel
    have hne : ¬ (runPointer s es).1.lastButtonState = e.1.buttonState := by
      rw [hlast]; exact r1
    have hodd : (leftStates (runPointer s es).2).length % 2 = 1 :=
      ihp.1 (by rw [hlast]; exact r2)
    have hgl : (leftStates (runPointer s es).2).getLast? = some SDL_PRESSED := by
      rw [iha]
      exact (alternation_getLast _).2 hodd
    have := hlink SDL_PRESSED (by rw [hgl]; rfl) SDL_PRESSED (by simp [hne, r3])
    exact this rfl

/-- C13 (counterexample): from the statics at program start, button state 1
and then button state 3 post two left-button presses in a row. -/
theorem runPointer_double_press :
    leftStates (runPointer DecoderState.initial
      [(⟨1, 1, 1, 1, 1, 0⟩, 0), (⟨3, 2, 2, 2, 2, 0⟩, 0)]).2 = [SDL_PRESSED, SDL_PRESSED] := by
  decide

/-- C13 (amended): for every finite sequence of pointer events handled from
`lastButtonState` 0, no two consecutive left-button events posted are both
releases; and no two consecutive left-button events posted are both presses
or both releases exactly when the button-state bitmask never changes
directly from one non-zero value to a different non-zero value between two
consecutive events of the sequence, in which case the left-button events
strictly alternate press, release, press, ... beginning with a press. -/
theorem runPointer_transitions (s : DecoderState) (h0 : s.lastButtonState = 0)
    (es : List (PointerEvent × Nat)) :
    List.Chain' (fun a b => ¬ (a = SDL_RELEASED ∧ b = SDL_RELEASED))
      (leftStates (runPointer s es).2) ∧
    (List.Chain' (fun a b => a ≠ b) (leftStates (runPointer s es).2) ↔
      List.Chain' (fun a b : Int => a = b ∨ a = 0 ∨ b = 0)
        (es.map (fun e => e.1.buttonState))) ∧
    (List.Chain' (fun a b : Int => a = b ∨ a = 0 ∨ b = 0)
        (es.map (fun e => e.1.buttonState)) →
      leftStates (runPointer s es).2 =
        alternation (leftStates (runPointer s es).2).length) := by
  refine ⟨(runPointer_no_double_release s h0 es).1, ⟨?_, ?_⟩, ?_⟩
  · exact runPointer_via_zero_of_chain s h0 es
  · intro h
    have halt := (runPointer_via_zero s h0 es h).1
    rw [halt]
    exact alternation_chain _
  · intro h
    exact (runPointer_via_zero s h0 es h).1

/-- Witness of C13 (amended): the bitmasks 1, 1, 0, 2, 0 from the statics at
program start, two different buttons with a release in between, post press,
release, press, release. -/
theorem runPointer_transitions_witness :
    leftStates (runPointer DecoderState.initial
      [(⟨1, 1, 1, 1, 1, 0⟩, 0), (⟨1, 2, 2, 2, 2, 0⟩, 0), (⟨0, 2, 2, 2, 2, 0⟩, 0),
       (⟨2, 3, 3, 3, 3, 0⟩, 0), (⟨0, 3, 3, 3, 3, 0⟩, 0)]).2 =
      alternation (leftStates (runPointer DecoderState.initial
        [(⟨1, 1, 1, 1, 1, 0⟩, 0), (⟨1, 2, 2, 2, 2, 0⟩, 0), (⟨0, 2, 2, 2, 2, 0⟩, 0),
         (⟨2, 3, 3, 3, 3, 0⟩, 0), (⟨0, 3, 3, 3, 3, 0⟩, 0)]).2).length :=
  (runPointer_transitions DecoderState.initial rfl
    [(⟨1, 1, 1, 1, 1, 0⟩, 0), (⟨1, 2, 2, 2, 2, 0⟩, 0), (⟨0, 2, 2, 2, 2, 0⟩, 0),
     (⟨2, 3, 3, 3, 3, 0⟩, 0), (⟨0, 3, 3, 3, 3, 0⟩, 0)]).2.2 (by simp)

/-! ## Multi-touch decoder -/

/-- C15: `handleMtouchEvent` at source position `p`: touch-begin while not
touching posts [motion without button at p, left press at p]; touch-begin
while touching posts [motion with left held at p]; release while touching
posts [motion with left held at p, left release at p]; release while not
touching posts [motion without button at p].  Afterwards `touching` is 1
after touch-begin and 0 after release, and `moveEvent.pending` is 0. -/
theorem handleMtouchEvent_touch_release (s : DecoderState) (e : MtouchEvent) :
    (s.touching = 0 → (handleMtouchEvent s e SCREEN_EVENT_MTOUCH_TOUCH).2 =
      [SinkEvent.motion 0 0 e.pos0 e.pos1,
       SinkEvent.button SDL_PRESSED SDL_BUTTON_LEFT e.pos0 e.pos1]) ∧
    (s.touching ≠ 0 → (handleMtouchEvent s e SCREEN_EVENT_MTOUCH_TOUCH).2 =
      [SinkEvent.motion SDL_BUTTON_LEFT 0 e.pos0 e.pos1]) ∧
    (s.touching ≠ 0 → (handleMtouchEvent s e SCREEN_EVENT_MTOUCH_RELEASE).2 =
      [SinkEvent.motion SDL_BUTTON_LEFT 0 e.pos0 e.pos1,
       SinkEvent.button SDL_RELEASED SDL_BUTTON_LEFT e.pos0 e.pos1]) ∧
    (s.touching = 0 → (handleMtouchEvent s e SCREEN_EVENT_MTOUCH_RELEASE).2 =
      [SinkEvent.motion 0 0 e.pos0 e.pos1]) ∧
    (handleMtouchEvent s e SCREEN_EVENT_MTOUCH_TOUCH).1.touching = 1 ∧
    (handleMtouchEvent s e SCREEN_EVENT_MTOUCH_RELEASE).1.touching = 0 ∧
    (handleMtouchEvent s e SCREEN_EVENT_MTOUCH_TOUCH).1.moveEvent.pending = 0 ∧
    (handleMtouchEvent s e SCREEN_EVENT_MTOUCH_RELEASE).1.moveEvent.pending = 0 := by
  refine ⟨?_, ?_, ?_, ?_, rfl, rfl, rfl, rfl⟩
  · intro h
    simp [handleMtouchEvent, h]
  · intro h
    simp [handleMtouchEvent, h]
  · intro h
    simp [handleMtouchEvent, h]
  · intro h
    simp [handleMtouchEvent, h]

/-- Witness of C15: touch-begin at (5, 6) from the statics at program
start, then release at (7, 8). -/
theorem handleMtouchEvent_touch_release_witness :
    (handleMtouchEvent DecoderState.initial ⟨5, 6⟩ SCREEN_EVENT_MTOUCH_TOUCH).2 =
      [SinkEvent.motion 0 0 5 6, SinkEvent.button SDL_PRESSED SDL_BUTTON_LEFT 5 6] ∧
    (handleMtouchEvent (handleMtouchEvent DecoderState.initial ⟨5, 6⟩
        SCREEN_EVENT_MTOUCH_TOUCH).1 ⟨7, 8⟩ SCREEN_EVENT_MTOUCH_RELEASE).2 =
      [SinkEvent.motion SDL_BUTTON_LEFT 0 7 8,
       SinkEvent.button SDL_RELEASED SDL_BUTTON_LEFT 7 8] :=
  ⟨(handleMtouchEvent_touch_release DecoderState.initial ⟨5, 6⟩).1 rfl,
   (handleMtouchEvent_touch_release (handleMtouchEvent DecoderState.initial ⟨5, 6⟩
      SCREEN_EVENT_MTOUCH_TOUCH).1 ⟨7, 8⟩).2.2.1 (by decide)⟩

/-- What `handleMtouchEvent` does on a move: it posts nothing and buffers
the sample with the current `touching`. -/
theorem handleMtouchEvent_move (s : DecoderState) (e : MtouchEvent) :
    handleMtouchEvent s e SCREEN_EVENT_MTOUCH_MOVE =
      ({ s with moveEvent := ⟨1, s.touching, e.pos0, e.pos1⟩ }, []) := by
  simp [handleMtouchEvent]

/-! ## Event pump -/

/-- Every pass through the body of the loop ends in `break`. -/
theorem pumpIteration_leave (M : Memory) (s : DecoderState) (poll : Poll)
    (frame : KeyboardFrame) (stackButton : Nat) :
    (pumpIteration M s poll frame stackButton).1 = LoopExit.leave := by
  unfold pumpIteration
  cases poll with
  | failed => rfl
  | noType => rfl
  | event e =>
    by_cases h1 : e.type = SCREEN_EVENT_NONE
    · simp [h1]
    · by_cases h2 : (!e.hasWindow) = true ∧ e.type ≠ SCREEN_EVENT_KEYBOARD
      · simp only [if_neg h1, if_pos h2]
      · simp only [if_neg h1, if_neg h2]

/-- The loop makes one pass and one poll, whatever the fuel beyond 0. -/
theorem pumpWhile_once (M : Memory) (queue : Nat → Poll) (frame : KeyboardFrame)
    (stackButton fuel : Nat) (s : DecoderState) :
    pumpWhile M queue frame stackButton (fuel + 1) 0 s [] =
      some (1, (pumpIteration M s (queue 0) frame stackButton).2.1,
        (pumpIteration M s (queue 0) frame stackButton).2.2) := by
  have hleave := pumpIteration_leave M s (queue 0) frame stackButton
  rcases h : pumpIteration M s (queue 0) frame stackButton with ⟨x, s1, o⟩
  rw [h] at hleave
  simp only at hleave
  subst hleave
  simp [pumpWhile, h]

/-- The flush leaves `moveEvent.pending` at 0. -/
theorem pumpFlush_pending (s : DecoderState) : (pumpFlush s).1.moveEvent.pending = 0 := by
  unfold pumpFlush
  by_cases h : s.moveEvent.pending ≠ 0
  · simp only [if_pos h]
  · simp only [if_neg h]
    exact not_not.mp h

/-- The function `PLAYBOOK_PumpEvents` with fuel: one poll, the pass on its
outcome, then the flush. -/
theorem PLAYBOOK_PumpEvents_eq (M : Memory) (s : DecoderState) (queue : Nat → Poll)
    (frame : KeyboardFrame) (stackButton fuel : Nat) :
    PLAYBOOK_PumpEvents M s queue frame stackButton (fuel + 1) =
      some (1, (pumpFlush (pumpIteration M s (queue 0) frame stackButton).2.1).1,
        (pumpIteration M s (queue 0) frame stackButton).2.2 ++
          (pumpFlush (pumpIteration M s (queue 0) frame stackButton).2.1).2) := by
  unfold PLAYBOOK_PumpEvents
  rw [pumpWhile_once]

/-- Whenever `PLAYBOOK_PumpEvents` returns, `moveEvent.pending` is 0. -/
theorem PLAYBOOK_PumpEvents_pending (M : Memory) (s : DecoderState) (queue : Nat → Poll)
    (frame : KeyboardFrame) (stackButton fuel polled : Nat) (s' : DecoderState)
    (out : List SinkEvent)
    (h : PLAYBOOK_PumpEvents M s queue frame stackButton fuel = some (polled, s', out)) :
    s'.moveEvent.pending = 0 := by
  cases fuel with
  | zero => simp [PLAYBOOK_PumpEvents, pumpWhile] at h
  | succ n =>
    rw [PLAYBOOK_PumpEvents_eq] at h
    simp only [Option.some.injEq, Prod.mk.injEq] at h
    rw [← h.2.1]
    exact pumpFlush_pending _

/-- C16: a call of `PLAYBOOK_PumpEvents` whose poll yields a touch-move with
a window makes one poll and posts exactly one event, a motion at the source
position of the move with the left button held iff `touching` is non-zero;
`handleMtouchEvent` itself posts nothing for the move and leaves `touching`
as it was; and `moveEvent.pending` is 0 when the pump returns. -/
theorem PLAYBOOK_PumpEvents_touch_move (M : Memory) (s : DecoderState) (queue : Nat → Poll)
    (frame : KeyboardFrame) (stackButton fuel : Nat) (e : ScreenEvent)
    (hq : queue 0 = Poll.event e) (htype : e.type = SCREEN_EVENT_MTOUCH_MOVE)
    (hwin : e.hasWindow = true) :
    (∃ s' : DecoderState,
      PLAYBOOK_PumpEvents M s queue frame stackButton (fuel + 1) =
        some (1, s', [SinkEvent.motion (if s.touching ≠ 0 then SDL_BUTTON_LEFT else 0) 0
          e.mtouch.pos0 e.mtouch.pos1]) ∧
      s'.moveEvent.pending = 0 ∧ s'.touching = s.touching) ∧
    (handleMtouchEvent s e.mtouch SCREEN_EVENT_MTOUCH_MOVE).2 = [] ∧
    (handleMtouchEvent s e.mtouch SCREEN_EVENT_MTOUCH_MOVE).1.touching = s.touching := by
  have hiter : pumpIteration M s (queue 0) frame stackButton =
      (LoopExit.leave, { s with moveEvent := ⟨1, s.touching, e.mtouch.pos0, e.mtouch.pos1⟩ },
        []) := by
    rw [hq]
    simp [pumpIteration, pumpSwitch, htype, hwin, handleMtouchEvent_move]
  refine ⟨?_, ?_, ?_⟩
  · rw [PLAYBOOK_PumpEvents_eq, hiter]
    refine ⟨_, rfl, ?_, ?_⟩
    · exact pumpFlush_pending _
    · simp [pumpFlush]
  · rw [handleMtouchEvent_move]
  · rw [handleMtouchEvent_move]

/-- Witness of C16: a touch-move at (5, 6) polled at program start. -/
theorem PLAYBOOK_PumpEvents_touch_move_witness :
    ∃ s' : DecoderState,
      PLAYBOOK_PumpEvents sampleMemory DecoderState.initial
          (constQueue (Poll.event (sampleEvent SCREEN_EVENT_MTOUCH_MOVE))) sampleFrame 0 (0 + 1) =
        some (1, s', [SinkEvent.motion (if DecoderState.initial.touching ≠ 0 then
          SDL_BUTTON_LEFT else 0) 0 5 6]) ∧
      s'.moveEvent.pending = 0 ∧ s'.touching = DecoderState.initial.touching :=
  (PLAYBOOK_PumpEvents_touch_move sampleMemory DecoderState.initial
    (constQueue (Poll.event (sampleEvent SCREEN_EVENT_MTOUCH_MOVE))) sampleFrame 0 0
    (sampleEvent SCREEN_EVENT_MTOUCH_MOVE) rfl rfl rfl).1

/-- C17: for every state and every outcome of the poll, a call of
`PLAYBOOK_PumpEvents` makes exactly one poll (so handles at most one native
event), returns with `moveEvent.pending` at 0, and posts what the pass on the
polled outcome posts followed by the flush: one motion event built from the
buffered touching flag and position when pending is non-zero after the
pass, nothing otherwise.  Hence pending is 0 in every state reachable
between calls from the statics at program start. -/
theorem PLAYBOOK_PumpEvents_flush (M : Memory) (s : DecoderState) (queue : Nat → Poll)
    (frame : KeyboardFrame) (stackButton fuel : Nat) :
    (∃ s' : DecoderState,
      PLAYBOOK_PumpEvents M s queue frame stackButton (fuel + 1) =
        some (1, s',
          (pumpIteration M s (queue 0) frame stackButton).2.2 ++
          (if (pumpIteration M s (queue 0) frame stackButton).2.1.moveEvent.pending ≠ 0 then
            [SinkEvent.motion
              (if (pumpIteration M s (queue 0) frame stackButton).2.1.moveEvent.touching ≠ 0
                then SDL_BUTTON_LEFT else 0) 0
              (pumpIteration M s (queue 0) frame stackButton).2.1.moveEvent.pos0
              (pumpIteration M s (queue 0) frame stackButton).2.1.moveEvent.pos1]
           else [])) ∧
      s'.moveEvent.pending = 0) ∧
    (∀ t : DecoderState, Reachable t → t.moveEvent.pending = 0) := by
  have hflush : ∀ d : DecoderState, (pumpFlush d).2 =
      if d.moveEvent.pending ≠ 0 then
        [SinkEvent.motion (if d.moveEvent.touching ≠ 0 then SDL_BUTTON_LEFT else 0) 0
          d.moveEvent.pos0 d.moveEvent.pos1]
      else [] := by
    intro d
    unfold pumpFlush
    by_cases h : d.moveEvent.pending ≠ 0
    · simp only [if_pos h]
    · simp only [if_neg h]
  refine ⟨⟨(pumpFlush (pumpIteration M s (queue 0) frame stackButton).2.1).1, ?_,
    pumpFlush_pending _⟩, ?_⟩
  · rw [PLAYBOOK_PumpEvents_eq, hflush]
  · intro t ht
    induction ht with
    | start => rfl
    | pump M s queue frame stackButton fuel polled s' out _ hp _ =>
      exact PLAYBOOK_PumpEvents_pending M s queue frame stackButton fuel polled s' out hp

/-- Witness of C17: the state a pump call leaves after a touch-move polled
at program start is reachable, and its pending flag is 0. -/
theorem PLAYBOOK_PumpEvents_flush_witness :
    Reachable ⟨⟨0, 0, 5, 6⟩, 0, 0⟩ ∧
    (⟨⟨0, 0, 5, 6⟩, 0, 0⟩ : DecoderState).moveEvent.pending = 0 :=
  ⟨Reachable.pump sampleMemory DecoderState.initial
      (constQueue (Poll.event (sampleEvent SCREEN_EVENT_MTOUCH_MOVE))) sampleFrame 0 1 1
      ⟨⟨0, 0, 5, 6⟩, 0, 0⟩ [SinkEvent.motion 0 0 5 6] Reachable.start (by decide),
   (PLAYBOOK_PumpEvents_flush sampleMemory DecoderState.initial
      (constQueue (Poll.event (sampleEvent SCREEN_EVENT_MTOUCH_MOVE))) sampleFrame 0 0).2
      ⟨⟨0, 0, 5, 6⟩, 0, 0⟩
      (Reachable.pump sampleMemory DecoderState.initial
        (constQueue (Poll.event (sampleEvent SCREEN_EVENT_MTOUCH_MOVE))) sampleFrame 0 1 1
        ⟨⟨0, 0, 5, 6⟩, 0, 0⟩ [SinkEvent.motion 0 0 5 6] Reachable.start (by decide))⟩

/-! ## Symbol resolution and the special table -/

/-- The mask 0xff keeps the low byte. -/
theorem cAnd_0xff (a : Int) : cAnd a 0xff = a % 256 := by
  have h := cAnd_natCast a 255 (by norm_num)
  have h2 := Nat.and_pow_two_sub_one_eq_mod (bits32 a) 8
  norm_num at h h2
  rw [h, h2]
  unfold bits32
  omega

/-- The mask 0xf000 tests the four bits 12..15. -/
theorem cAnd_0xf000 (a : Int) : cAnd a 0xf000 ≠ 0 ↔ a / 4096 % 16 ≠ 0 := by
  have h := cAnd_natCast a 0xf000 (by norm_num)
  have hsplit : (0xf000 : Nat) = 2 ^ 12 ||| 2 ^ 13 ||| 2 ^ 14 ||| 2 ^ 15 := by decide
  have hcast : ((0xf000 : Nat) : Int) = 0xf000 := by norm_num
  rw [hcast] at h
  rw [h, hsplit, Nat.and_or_distrib_left, Nat.and_or_distrib_left, Nat.and_or_distrib_left,
    nat_and_two_pow, nat_and_two_pow, nat_and_two_pow, nat_and_two_pow]
  have e12 : (bits32 a / 2 ^ 12 % 2 = 1) ↔ a / 4096 % 2 = 1 := by unfold bits32; omega
  have e13 : (bits32 a / 2 ^ 13 % 2 = 1) ↔ a / 8192 % 2 = 1 := by unfold bits32; omega
  have e14 : (bits32 a / 2 ^ 14 % 2 = 1) ↔ a / 16384 % 2 = 1 := by unfold bits32; omega
  have e15 : (bits32 a / 2 ^ 15 % 2 = 1) ↔ a / 32768 % 2 = 1 := by unfold bits32; omega
  by_cases c12 : bits32 a / 2 ^ 12 % 2 = 1 <;> by_cases c13 : bits32 a / 2 ^ 13 % 2 = 1 <;>
    by_cases c14 : bits32 a / 2 ^ 14 % 2 = 1 <;> by_cases c15 : bits32 a / 2 ^ 15 % 2 = 1 <;>
    simp only [c12, c13, c14, c15, if_true, if_false] <;>
    (constructor
     · intro hh
       first
         | omega
         | exact absurd (by decide) hh
     · intro hh
       first
         | decide
         | (exfalso; omega))

/-- A read of the special table is always within its 256 entries. -/
theorem symbolRead_special (sym : Int) (h : sym / 4096 % 16 ≠ 0) :
    symbolRead sym = TableRead.special (sym % 256) ∧ (symbolRead sym).inTable = true := by
  have hs : symbolRead sym = TableRead.special (sym % 256) := by
    unfold symbolRead
    rw [if_pos ((cAnd_0xf000 sym).2 h), cAnd_0xff]
  refine ⟨hs, ?_⟩
  rw [hs]
  have h1 : 0 ≤ sym % 256 := by omega
  have h2 : sym % 256 < 256 := by omega
  simp [TableRead.inTable, h1, h2]

/-- A read of the ascii table is made at the raw symbol itself, and is
within the 256 entries only when the raw symbol is. -/
theorem symbolRead_keycodes (sym : Int) (h : sym / 4096 % 16 = 0) :
    symbolRead sym = TableRead.keycodes sym ∧
    ((symbolRead sym).inTable = true ↔ (0 ≤ sym ∧ sym < 256)) := by
  have hs : symbolRead sym = TableRead.keycodes sym := by
    unfold symbolRead
    have hn : ¬ (cAnd sym 0xf000 ≠ 0) := fun hc => (cAnd_0xf000 sym).1 hc h
    rw [if_neg hn]
  refine ⟨hs, ?_⟩
  rw [hs]
  simp [TableRead.inTable]

/-- Slot `i` after a run of assignments: the fold of the assignments to
slot `i` alone over its prior content. -/
theorem foldl_storeSpecial_get (i : Nat) (as : List (Int × Int)) :
    ∀ l : List Int, i < l.length →
      (as.foldl storeSpecial l)[i]? =
        as.foldl (fun acc iv => if iv.1.toNat = i then some iv.2 else acc) (l[i]?) := by
  induction as with
  | nil => intro l _; rfl
  | cons iv as ih =>
    intro l hi
    have hlen : i < (storeSpecial l iv).length := by
      simp [storeSpecial, hi]
    rw [List.foldl_cons, List.foldl_cons, ih _ hlen]
    congr 1
    unfold storeSpecial
    rw [List.getElem?_set]
    by_cases hk : iv.1.toNat = i
    · simp [hk, hi]
    · simp [hk]

/-- The fold of the assignments to one slot over a prior content `x`. -/
theorem foldl_assign_some (i : Nat) (x : Int) (as : List (Int × Int)) :
    ∀ d : Option Int,
      as.foldl (fun acc iv => if iv.1.toNat = i then some iv.2 else acc) (some (d.getD x)) =
        some ((as.foldl (fun acc iv => if iv.1.toNat = i then some iv.2 else acc) d).getD x) := by
  induction as with
  | nil => intro d; rfl
  | cons iv as ih =>
    intro d
    rw [List.foldl_cons, List.foldl_cons]
    by_cases hk : iv.1.toNat = i
    · simp only [if_pos hk]
      exact ih (some iv.2)
    · simp only [if_neg hk]
      exact ih d

/-- Slot `i` of the special table after `PLAYBOOK_InitOSKeymap`: the value
last assigned to it, or what `malloc` left there. -/
theorem specialAt_init (M : Memory) (block : Nat → Int) (i : Nat) (hi : i < 256) :
    (PLAYBOOK_InitOSKeymap M block).specialAt (i : Int) = (lastAssigned i).getD (block i) := by
  have hsp : (PLAYBOOK_InitOSKeymap M block).Playbook_specialsyms =
      specialAssignments.foldl storeSpecial ((List.range 256).map block) := by
    simp only [PLAYBOOK_InitOSKeymap]
  have hlen : i < ((List.range 256).map block).length := by simp [hi]
  have hget : ((List.range 256).map block)[i]? = some ((none : Option Int).getD (block i)) := by
    simp [hi]
  unfold Memory.specialAt
  rw [if_pos (Int.natCast_nonneg i), Int.toNat_natCast, hsp,
    foldl_storeSpecial_get i specialAssignments _ hlen, hget, foldl_assign_some]
  rfl

/-- The last assignments to the slots the initialiser writes. -/
theorem lastAssigned_written :
    lastAssigned 0xbe = some SDLK_MENU ∧
    (∀ iv ∈ specialAssignments, ∃ v : Int, lastAssigned iv.1.toNat = some v ∧ v ≠ SDLK_F1 ∧
      iv.1 = ((iv.1.toNat : Nat) : Int) ∧ iv.1.toNat < 256) ∧
    (lastAssigned 0xbf = some SDLK_F2 ∧ lastAssigned 0xc0 = some SDLK_F3 ∧
      lastAssigned 0xc1 = some SDLK_F4 ∧ lastAssigned 0xc2 = some SDLK_F5 ∧
      lastAssigned 0xc3 = some SDLK_F6 ∧ lastAssigned 0xc4 = some SDLK_F7 ∧
      lastAssigned 0xc5 = some SDLK_F8 ∧ lastAssigned 0xc6 = some SDLK_F9 ∧
      lastAssigned 0xc7 = some SDLK_F10 ∧ lastAssigned 0xc8 = some SDLK_F11 ∧
      lastAssigned 0xc9 = some SDLK_F12) := by
  decide

/-- The symbol `TranslateVKB` leaves in the record is the resolved one. -/
theorem TranslateVKB_sym (M : Memory) (sym mods flags scan cap : Int) (ks : SDL_keysym) :
    (TranslateVKB M sym mods flags scan cap ks).2.sym = M.load (symbolRead sym) := by
  rw [TranslateVKB_eq]
  by_cases hmem : M.load (symbolRead sym) ∈ vkbLabels
  · obtain ⟨n, _, _, hn⟩ := switchOn_vkbCases_mem _ hmem
    rw [hn]
  · rw [switchOn_of_not_mem _ _ _ hmem]

/-- C19: after `PLAYBOOK_InitOSKeymap`, slot 0xbe of the special table,
written for both F1 and menu, holds menu; no slot the initialiser writes
holds F1; slots 0xbf..0xc9 hold F2..F12 in order; and a raw special symbol
with low byte 0xbe is given the symbol menu by both keyboard decoders. -/
theorem PLAYBOOK_InitOSKeymap_menu (M : Memory) (block : Nat → Int) :
    (PLAYBOOK_InitOSKeymap M block).specialAt 0xbe = SDLK_MENU ∧
    (∀ iv ∈ specialAssignments, (PLAYBOOK_InitOSKeymap M block).specialAt iv.1 ≠ SDLK_F1) ∧
    ((PLAYBOOK_InitOSKeymap M block).specialAt 0xbf = SDLK_F2 ∧
      (PLAYBOOK_InitOSKeymap M block).specialAt 0xc0 = SDLK_F3 ∧
      (PLAYBOOK_InitOSKeymap M block).specialAt 0xc1 = SDLK_F4 ∧
      (PLAYBOOK_InitOSKeymap M block).specialAt 0xc2 = SDLK_F5 ∧
      (PLAYBOOK_InitOSKeymap M block).specialAt 0xc3 = SDLK_F6 ∧
      (PLAYBOOK_InitOSKeymap M block).specialAt 0xc4 = SDLK_F7 ∧
      (PLAYBOOK_InitOSKeymap M block).specialAt 0xc5 = SDLK_F8 ∧
      (PLAYBOOK_InitOSKeymap M block).specialAt 0xc6 = SDLK_F9 ∧
      (PLAYBOOK_InitOSKeymap M block).specialAt 0xc7 = SDLK_F10 ∧
      (PLAYBOOK_InitOSKeymap M block).specialAt 0xc8 = SDLK_F11 ∧
      (PLAYBOOK_InitOSKeymap M block).specialAt 0xc9 = SDLK_F12) ∧
    (∀ sym mods flags scan cap : Int, ∀ ks : SDL_keysym,
      sym / 4096 % 16 ≠ 0 → sym % 256 = 0xbe →
      (flags ≠ 32 →
        (TranslateBluetoothKeyboard (PLAYBOOK_InitOSKeymap M block) sym mods flags scan cap
          ks).2.sym = SDLK_MENU) ∧
      (TranslateVKB (PLAYBOOK_InitOSKeymap M block) sym mods flags scan cap ks).2.sym
        = SDLK_MENU) := by
  obtain ⟨hmenu, hwritten, f2, f3, f4, f5, f6, f7, f8, f9, f10, f11, f12⟩ :=
    lastAssigned_written
  have hslot : ∀ (i : Nat) (v : Int), i < 256 → lastAssigned i = some v →
      (PLAYBOOK_InitOSKeymap M block).specialAt (i : Int) = v := by
    intro i v hi hv
    rw [specialAt_init M block i hi, hv]
    rfl
  have hbe : (PLAYBOOK_InitOSKeymap M block).specialAt 0xbe = SDLK_MENU :=
    hslot 0xbe SDLK_MENU (by norm_num) hmenu
  refine ⟨hbe, ?_, ?_, ?_⟩
  · intro iv hiv
    obtain ⟨v, hv, hne, hcast, hlt⟩ := hwritten iv hiv
    rw [hcast, hslot _ v hlt hv]
    exact hne
  · exact ⟨hslot 0xbf _ (by norm_num) f2, hslot 0xc0 _ (by norm_num) f3,
      hslot 0xc1 _ (by norm_num) f4, hslot 0xc2 _ (by norm_num) f5,
      hslot 0xc3 _ (by norm_num) f6, hslot 0xc4 _ (by norm_num) f7,
      hslot 0xc5 _ (by norm_num) f8, hslot 0xc6 _ (by norm_num) f9,
      hslot 0xc7 _ (by norm_num) f10, hslot 0xc8 _ (by norm_num) f11,
      hslot 0xc9 _ (by norm_num) f12⟩
  · intro sym mods flags scan cap ks hspecial hlow
    have hread : symbolRead sym = TableRead.special 0xbe := by
      rw [(symbolRead_special sym hspecial).1, hlow]
    have hload : (PLAYBOOK_InitOSKeymap M block).load (symbolRead sym) = SDLK_MENU := by
      rw [hread]
      exact hbe
    refine ⟨?_, ?_⟩
    · intro hflags
      rw [TranslateBluetoothKeyboard_eq _ sym mods flags scan cap ks hflags]
      exact hload
    · rw [TranslateVKB_sym]
      exact hload

/-- Witness of C19: the raw symbol 0xf0be (special marker, low byte 0xbe) on
the initialised sample tables is given the symbol menu by both decoders. -/
theorem PLAYBOOK_InitOSKeymap_menu_witness :
    (TranslateBluetoothKeyboard sampleMemory 0xf0be 0 0xe1 30 0 zeroKeysym).2.sym
      = SDLK_MENU ∧
    (TranslateVKB sampleMemory 0xf0be 0 0xe1 30 0 zeroKeysym).2.sym = SDLK_MENU :=
  ⟨((PLAYBOOK_InitOSKeymap_menu (bootMemory (fun _ => ⟨7, 7, 7, 7⟩) (fun _ => 7))
      (fun _ => 7)).2.2.2 0xf0be 0 0xe1 30 0 zeroKeysym (by decide) (by decide)).1 (by decide),
   ((PLAYBOOK_InitOSKeymap_menu (bootMemory (fun _ => ⟨7, 7, 7, 7⟩) (fun _ => 7))
      (fun _ => 7)).2.2.2 0xf0be 0 0xe1 30 0 zeroKeysym (by decide) (by decide)).2⟩

/-- C18 (the code at the failing input): the raw symbol 256 has none of the
bits 0xf000, so both decoders read `Playbook_Keycodes[256]`, one entry past
the 256 entries of the ascii table; the symbol they produce is whatever lies
there (7 in the sample storage). -/
theorem symbolRead_beyond_table :
    symbolRead 256 = TableRead.keycodes 256 ∧
    (symbolRead 256).inTable = false ∧
    (TranslateVKB sampleMemory 256 0 1 0 0 sampleFrame.keysym).2.sym = 7 ∧
    (TranslateBluetoothKeyboard sampleMemory 256 0 0xe1 30 0 zeroKeysym).2.sym = 7 ∧
    sampleMemory.beyondKeycodes 256 = ⟨7, 7, 7, 7⟩ := by
  decide

/-! ## Sequences of touch events -/

/-- The left-button states of one call of `handleMtouchEvent` and the
`touching` it leaves. -/
theorem leftStates_handleMtouchEvent (s : DecoderState) (e : MtouchEvent) (type : Int) :
    (leftStates (handleMtouchEvent s e type).2 =
      if type = SCREEN_EVENT_MTOUCH_TOUCH then (if s.touching ≠ 0 then [] else [SDL_PRESSED])
      else if type = SCREEN_EVENT_MTOUCH_RELEASE then
        (if s.touching ≠ 0 then [SDL_RELEASED] else [])
      else []) ∧
    ((handleMtouchEvent s e type).1.touching =
      if type = SCREEN_EVENT_MTOUCH_TOUCH then 1
      else if type = SCREEN_EVENT_MTOUCH_RELEASE then 0
      else s.touching) := by
  unfold handleMtouchEvent
  by_cases h1 : type = SCREEN_EVENT_MTOUCH_TOUCH
  · by_cases ht : s.touching ≠ 0
    · simp [h1, ht, leftStates]
    · simp [h1, ht, leftStates]
  · by_cases h2 : type = SCREEN_EVENT_MTOUCH_RELEASE
    · by_cases ht : s.touching ≠ 0
      · simp [h1, h2, ht, leftStates]
      · simp [h1, h2, ht, leftStates]
    · by_cases h3 : type = SCREEN_EVENT_MTOUCH_MOVE
      · simp [h1, h2, h3, leftStates]
      · simp [h1, h2, h3, leftStates]

/-- The only button `handleMtouchEvent` posts events for is the left one. -/
theorem handleMtouchEvent_buttons (s : DecoderState) (e : MtouchEvent) (type : Int) :
    ∀ ev ∈ (handleMtouchEvent s e type).2, ∀ b : Nat, ev.isButton b = true →
      b = SDL_BUTTON_LEFT := by
  intro ev hev b hb
  unfold handleMtouchEvent at hev
  by_cases h1 : type = SCREEN_EVENT_MTOUCH_TOUCH
  · by_cases ht : s.touching ≠ 0
    · simp [h1, ht] at hev
      subst hev
      simp [SinkEvent.isButton] at hb
    · simp [h1, ht] at hev
      rcases hev with hev | hev
      · subst hev
        simp [SinkEvent.isButton] at hb
      · subst hev
        simp [SinkEvent.isButton] at hb
        first | exact hb | exact hb.symm
  · by_cases h2 : type = SCREEN_EVENT_MTOUCH_RELEASE
    · by_cases ht : s.touching ≠ 0
      · simp [h1, h2, ht] at hev
        rcases hev with hev | hev
        · subst hev
          simp [SinkEvent.isButton] at hb
        · subst hev
          simp [SinkEvent.isButton] at hb
          first | exact hb | exact hb.symm
      · simp [h1, h2, ht] at hev
        subst hev
        simp [SinkEvent.isButton] at hb
    · by_cases h3 : type = SCREEN_EVENT_MTOUCH_MOVE
      · simp [h1, h2, h3] at hev
      · simp [h1, h2, h3] at hev

/-- A run of touch events extended by one event. -/
theorem runMtouch_snoc (s : DecoderState) (es : List (MtouchEvent × Int))
    (e : MtouchEvent × Int) :
    runMtouch s (es ++ [e]) =
      ((handleMtouchEvent (runMtouch s es).1 e.1 e.2).1,
       (runMtouch s es).2 ++ (handleMtouchEvent (runMtouch s es).1 e.1 e.2).2) := by
  simp [runMtouch, List.foldl_append]

/-- Along a run of touch events from `touching` 0 the left-button events
alternate, beginning with a press, and `touching` is non-zero exactly after
an odd number of them. -/
theorem runMtouch_invariant (s : DecoderState) (h0 : s.touching = 0)
    (es : List (MtouchEvent × Int)) :
    leftStates (runMtouch s es).2 = alternation (leftStates (runMtouch s es).2).length ∧
    ((runMtouch s es).1.touching ≠ 0 ↔ (leftStates (runMtouch s es).2).length % 2 = 1) := by
  induction es using List.reverseRecOn with
  | nil => simp [runMtouch, leftStates, alternation, h0]
  | append_singleton es e ih =>
    obtain ⟨iha, ihp⟩ := ih
    obtain ⟨hL, hT⟩ := leftStates_handleMtouchEvent (runMtouch s es).1 e.1 e.2
    rw [runMtouch_snoc]
    simp only [leftStates_append, hL, hT]
    by_cases h1 : e.2 = SCREEN_EVENT_MTOUCH_TOUCH
    · simp only [if_pos h1]
      by_cases ht : (runMtouch s es).1.touching ≠ 0
      · simp only [if_pos ht, List.append_nil]
        exact ⟨iha, ⟨fun _ => ihp.1 ht, fun _ => by decide⟩⟩
      · have heven : (leftStates (runMtouch s es).2).length % 2 = 0 := by
          by_contra hc
          have : (leftStates (runMtouch s es).2).length % 2 = 1 := by omega
          exact ht (ihp.2 this)
        simp only [if_neg ht, List.length_append, List.length_singleton]
        refine ⟨?_, ⟨fun _ => by omega, fun _ => by decide⟩⟩
        rw [alternation_succ, ← iha, if_pos heven]
    · simp only [if_neg h1]
      by_cases h2 : e.2 = SCREEN_EVENT_MTOUCH_RELEASE
      · simp only [if_pos h2]
        by_cases ht : (runMtouch s es).1.touching ≠ 0
        · have hodd := ihp.1 ht
          have hne : ¬ (leftStates (runMtouch s es).2).length % 2 = 0 := by omega
          simp only [if_pos ht, List.length_append, List.length_singleton]
          refine ⟨?_, ⟨fun h => absurd rfl h, fun h => by omega⟩⟩
          rw [alternation_succ, ← iha, if_neg hne]
        · simp only [if_neg ht, List.append_nil]
          refine ⟨iha, ⟨fun h => absurd rfl h, fun h => ?_⟩⟩
          exact absurd (ihp.2 h) ht
      · simp only [if_neg h2, List.append_nil]
        exact ⟨iha, ihp⟩

/-- C20: for every finite sequence of touch events (touch-begin, move,
release) handled by `handleMtouchEvent` from `touching` 0, the left-button
events posted strictly alternate press, release, press, ... beginning with a
press, and at the end of the sequence `touching` is non-zero exactly when
the last left-button event posted was a press (zero when none was posted).
Every prefix of a sequence is a sequence, so this holds after each call. -/
theorem runMtouch_alternates (s : DecoderState) (h0 : s.touching = 0)
    (es : List (MtouchEvent × Int)) :
    leftStates (runMtouch s es).2 = alternation (leftStates (runMtouch s es).2).length ∧
    ((runMtouch s es).1.touching ≠ 0 ↔
      (leftStates (runMtouch s es).2).getLast? = some SDL_PRESSED) ∧
    (∀ ev ∈ (runMtouch s es).2, ∀ b : Nat, ev.isButton b = true → b = SDL_BUTTON_LEFT) := by
  obtain ⟨ha, hp⟩ := runMtouch_invariant s h0 es
  refine ⟨ha, ?_, ?_⟩
  · rw [hp]
    constructor
    · intro h
      rw [ha]
      exact (alternation_getLast _).2 h
    · intro h
      rw [ha] at h
      exact (alternation_getLast _).1 h
  · clear ha hp
    induction es using List.reverseRecOn with
    | nil => simp [runMtouch]
    | append_singleton es e ih =>
      intro ev hev b hb
      rw [runMtouch_snoc] at hev
      rcases List.mem_append.1 hev with h | h
      · exact ih ev h b hb
      · exact handleMtouchEvent_buttons _ _ _ ev h b hb

/-- Witness of C20: touch-begin, move, touch-begin again, release, release
from the statics at program start post press then release, and `touching`
ends at 0. -/
theorem runMtouch_alternates_witness :
    leftStates (runMtouch DecoderState.initial
      [(⟨1, 1⟩, SCREEN_EVENT_MTOUCH_TOUCH), (⟨2, 2⟩, SCREEN_EVENT_MTOUCH_MOVE),
       (⟨3, 3⟩, SCREEN_EVENT_MTOUCH_TOUCH), (⟨4, 4⟩, SCREEN_EVENT_MTOUCH_RELEASE),
       (⟨4, 4⟩, SCREEN_EVENT_MTOUCH_RELEASE)]).2 =
      alternation (leftStates (runMtouch DecoderState.initial
        [(⟨1, 1⟩, SCREEN_EVENT_MTOUCH_TOUCH), (⟨2, 2⟩, SCREEN_EVENT_MTOUCH_MOVE),
         (⟨3, 3⟩, SCREEN_EVENT_MTOUCH_TOUCH), (⟨4, 4⟩, SCREEN_EVENT_MTOUCH_RELEASE),
         (⟨4, 4⟩, SCREEN_EVENT_MTOUCH_RELEASE)]).2).length :=
  (runMtouch_alternates DecoderState.initial rfl
    [(⟨1, 1⟩, SCREEN_EVENT_MTOUCH_TOUCH), (⟨2, 2⟩, SCREEN_EVENT_MTOUCH_MOVE),
     (⟨3, 3⟩, SCREEN_EVENT_MTOUCH_TOUCH), (⟨4, 4⟩, SCREEN_EVENT_MTOUCH_RELEASE),
     (⟨4, 4⟩, SCREEN_EVENT_MTOUCH_RELEASE)]).1

end Playbook
